import Mathlib

set_option maxHeartbeats 1000000

namespace Gent

/-! Shallow embedding of the Geant4 installer script (src/Alpha.py).

String-level helpers model the Python primitives the script uses:
str.strip, str.lower, substring membership, str.startswith, int(...),
and os.path.join. -/

/-- Characters treated as whitespace by Python str.strip with no arguments. -/
def isPySpace (c : Char) : Bool :=
  c = ' ' || c = '\t' || c = '\n' || c = '\r' || c = '\x0b' || c = '\x0c'

/-- Python str.strip on a character list: drop whitespace from both ends. -/
def pyStripList (cs : List Char) : List Char :=
  ((cs.dropWhile isPySpace).reverse.dropWhile isPySpace).reverse

/-- Python str.strip on a string, as in input(...).strip() and stdout.strip(). -/
def pyStrip (s : String) : String := String.mk (pyStripList s.data)

/-- Python str.strip with an explicit character argument, used for stripping
double-quote characters: removes every leading and trailing occurrence. -/
def pyStripChar (q : Char) (s : String) : String :=
  String.mk (((s.data.dropWhile (· = q)).reverse.dropWhile (· = q)).reverse)

/-- Python str.lower; every character that matters here is ASCII. -/
def pyLower (s : String) : String := String.mk (s.data.map Char.toLower)

/-- Python input(...).strip().lower() as applied to the three-way prompt answers. -/
def pyStripLower (s : String) : String := pyLower (pyStrip s)

/-- Test whether the first list is a leading block of the second. -/
def listStartsWith : List Char → List Char → Bool
  | [], _ => true
  | _ :: _, [] => false
  | a :: as, b :: bs => a == b && listStartsWith as bs

/-- Python substring membership, the in operator on strings, on char lists. -/
def containsSub (n : List Char) : List Char → Bool
  | [] => n.isEmpty
  | c :: cs => listStartsWith n (c :: cs) || containsSub n cs

/-- Python str.startswith for strings. -/
def strStarts (p s : String) : Bool := listStartsWith p.data s.data

/-- Python substring membership needle in hay for strings. -/
def strIn (n hay : String) : Bool := containsSub n.data hay.data

/-- Python str.endswith test, used to model os.path.join. -/
def strEnds (p s : String) : Bool := listStartsWith p.data.reverse s.data.reverse

/-- Accumulate the decimal value of a digit run; fails on a non-digit. -/
def digitsValAux : List Char → Nat → Option Nat
  | [], acc => some acc
  | c :: cs, acc =>
    if c.isDigit then digitsValAux cs (acc * 10 + (c.toNat - 48)) else none

/-- Value of a nonempty all-digit character list, as read by Python int. -/
def digitsVal : List Char → Option Nat
  | [] => none
  | c :: cs => digitsValAux (c :: cs) 0

/-- Python int(str): strip whitespace, optional sign, decimal digits, ValueError
modelled as none. Underscore separators and non-ASCII digits that CPython also
accepts are not modelled; no claim depends on them. -/
def pyToInt? (s : String) : Option Int :=
  match pyStripList s.data with
  | '+' :: ds => (digitsVal ds).map (fun n => (n : Int))
  | '-' :: ds => (digitsVal ds).map (fun n => -(n : Int))
  | ds => (digitsVal ds).map (fun n => (n : Int))

/-! Version Resolver: the regular expression scan, deduplication and sort of
get_latest_geant4_version (src/Alpha.py lines 70-90). -/

/-- Match the tail of the pattern after the literal v, returning the captured
group of the regular expression, with greedy digit runs and the optional
third component exactly as the re module resolves them. -/
def matchVer (cs : List Char) : Option (List Char) :=
  let d1 := cs.takeWhile Char.isDigit
  let r1 := cs.dropWhile Char.isDigit
  if d1.isEmpty then none
  else
    match r1 with
    | '.' :: r2 =>
      let d2 := r2.takeWhile Char.isDigit
      let r3 := r2.dropWhile Char.isDigit
      if d2.isEmpty then none
      else
        match r3 with
        | '.' :: r4 =>
          let d3 := r4.takeWhile Char.isDigit
          if d3.isEmpty then some (d1 ++ '.' :: d2)
          else some (d1 ++ '.' :: d2 ++ '.' :: d3)
        | _ => some (d1 ++ '.' :: d2)
    | _ => none

/-- Scan for every match of the version pattern as re.findall does. A match
never contains a second letter v, so restarting one character after each match
start yields exactly the non-overlapping matches the re module returns. -/
def scanVers : List Char → List String
  | [] => []
  | c :: cs =>
    if c = 'v' then
      match matchVer cs with
      | some cap => String.mk cap :: scanVers cs
      | none => scanVers cs
    else scanVers cs

/-- Split a character list at a separator, as Python str.split with one
separator character: no collapsing of empty parts. -/
def splitOnChar (sep : Char) : List Char → List (List Char)
  | [] => [[]]
  | c :: cs =>
    let r := splitOnChar sep cs
    if c = sep then [] :: r
    else
      match r with
      | [] => [[c]]
      | g :: gs => (c :: g) :: gs

/-- Numeric value of one dot-separated component; the components produced by
the scan are digit runs, on which this agrees with Python int. -/
def compVal (cs : List Char) : Nat := cs.foldl (fun n c => n * 10 + (c.toNat - 48)) 0

/-- Sort key of the source: the list of the integer values of the
dot-separated components of the version string. -/
def verKey (s : String) : List Nat := (splitOnChar '.' s.data).map compVal

/-- Python list comparison on integer keys: lexicographic, a strict proper
prefix compares less. -/
def keyLt : List Nat → List Nat → Bool
  | [], [] => false
  | [], _ :: _ => true
  | _ :: _, [] => false
  | a :: as, b :: bs => if a < b then true else if b < a then false else keyLt as bs

/-- Deduplication of the match list. The source builds a Python set, whose
iteration order is unspecified; first occurrences are kept here, and no claim
depends on the order in which the set is enumerated. -/
def dedupAcc (seen : List String) : List String → List String
  | [] => []
  | x :: xs => if seen.contains x then dedupAcc seen xs else x :: dedupAcc (x :: seen) xs

/-- Set construction over the regular-expression matches. -/
def pyDedup (l : List String) : List String := dedupAcc [] l

/-- Insert one element into a list that is descending by key, after every
element of greater or equal key, matching the stable reverse sort. -/
def insDesc (x : String) : List String → List String
  | [] => [x]
  | y :: ys => if keyLt (verKey y) (verKey x) then x :: y :: ys else y :: insDesc x ys

/-- Stable descending sort by the numeric key, as the source's reverse sorted. -/
def sortDesc (l : List String) : List String := l.foldl (fun acc x => insDesc x acc) []

/-- Version list of the resolver: matches, deduplicated, sorted descending. -/
def sortedVersions (text : String) : List String := sortDesc (pyDedup (scanVers text.data))

/-- Menu the program displays: the first five entries of the version list. -/
def displayedVersions (text : String) : List String := (sortedVersions text).take 5

/-- Descending comparison used in the claims: the earlier entry is not
key-below the later one. -/
def DescP (a b : String) : Prop := keyLt (verKey a) (verKey b) = false

/-- Strict descending comparison: the later entry is key-below the earlier. -/
def StrictDescP (a b : String) : Prop := keyLt (verKey b) (verKey a) = true

/-! Interactive number prompts. -/

/-- Outcome of the version-selection loop of get_latest_geant4_version:
a chosen version, an uncaught IndexError, or input exhaustion (EOFError,
likewise uncaught since only ValueError is handled). -/
inductive VerChoice where
  | ok (v : String)
  | idxErr
  | eof
deriving DecidableEq

/-- Version-selection loop (src/Alpha.py lines 83-90): parse the answer with
int, loop on ValueError or an answer outside 1..5, and index the version list
on an answer in range, where an index past the end raises IndexError. -/
def chooseVersion (vs : List String) : List String → VerChoice
  | [] => .eof
  | i :: rest =>
    match pyToInt? i with
    | some c =>
      if 1 ≤ c ∧ c ≤ 5 then
        match vs.get? (c - 1).toNat with
        | some v => .ok v
        | none => .idxErr
      else chooseVersion vs rest
    | none => chooseVersion vs rest

/-- CPU-core prompt (src/Alpha.py lines 25-33): loop until an answer parses as
an integer greater than zero, return exactly that integer; none models the
input stream running out. -/
def get_cpu_cores : List String → Option Int
  | [] => none
  | i :: rest =>
    match pyToInt? i with
    | some k => if 0 < k then some k else get_cpu_cores rest
    | none => get_cpu_cores rest

/-! OS and distro detection (src/Alpha.py lines 36-67). -/

/-- Scan of the release-file lines for the PRETTY_NAME key, as the source loop
does. A matching line without an equals sign raises IndexError inside the try
block, which the bare except turns into Unknown; when no line matches, the
Python function falls off its end and returns None, modelled as none. -/
def scanPretty : List String → Option String
  | [] => none
  | l :: ls =>
    if strStarts "PRETTY_NAME" l then
      match (splitOnChar '=' (pyStrip l).data).get? 1 with
      | some v => some (pyStripChar '"' (String.mk v))
      | none => some "Unknown"
    else scanPretty ls

/-- Model of get_linux_distro. The first argument is the captured stdout of
the lsb_release subprocess when it succeeds, none when it raises; the second
is the line list of the release file when opening succeeds, none when opening
raises. The returned none models Python returning None. -/
def get_linux_distro (lsb : Option String) (osRelease : Option (List String)) : Option String :=
  match lsb with
  | some out => some (pyStripChar '"' (pyStrip out))
  | none =>
    match osRelease with
    | none => some "Unknown"
    | some lines => scanPretty lines

/-- Environment a run of the script observes: platform facts, the fetched
tags page, the interactive answers, and the success of each external action.
cmdOk gives the zero-versus-nonzero exit status of each shell command and
bashrcOk whether the final profile append raises. -/
structure Env where
  osName : String
  osIsNt : Bool
  kernel : String
  lsb : Option String
  osRelease : Option (List String)
  httpText : String
  verInputs : List String
  tarballExists : Bool
  tarChoice : String
  buildExists : Bool
  buildNonEmpty : Bool
  buildChoice : String
  coreInputs : List String
  tempPath : String
  cmdOk : String → Bool
  bashrcOk : Bool
  scriptDir : String

/-- Model of detect_os: the OS-type classification and the distro description.
The distro is computed from the reported OS name, the classification from
os.name and a case-insensitive microsoft check on the kernel release. -/
def detect_os (env : Env) : String × Option String :=
  let distro := if env.osName = "Linux" then get_linux_distro env.lsb env.osRelease else some "N/A"
  let osType :=
    if env.osIsNt then "Windows"
    else if strIn "microsoft" (pyLower env.kernel) then "WSL"
    else "Linux"
  (osType, distro)

/-! Dependency Installer (src/Alpha.py lines 93-111). -/

/-- Package command for Arch. -/
def pacmanCmd : String := "sudo pacman -Sy --noconfirm cmake gcc binutils glew libjpeg-turbo libpng libtiff giflib libxml2 openssl fftw qt5-base qt5-tools mesa glu libxmu"

/-- Package command for Ubuntu, Debian and Mint. -/
def aptCmd : String := "sudo apt update && sudo apt install -y cmake cmake-curses-gui g++ gcc binutils libx11-dev libxpm-dev libxft-dev libxext-dev libglew-dev libjpeg-dev libpng-dev libtiff-dev libgif-dev libxml2-dev libssl-dev libfftw3-dev qtbase5-dev qtchooser qttools5-dev-tools libgl1-mesa-dev libglu1-mesa-dev libxmu-dev"

/-- Package command for openSUSE. -/
def zypperCmd : String := "sudo zypper install -y cmake gcc gcc-c++ libX11-devel libXpm-devel libXft-devel libXext-devel glew-devel libjpeg-devel libpng-devel libtiff-devel giflib-devel libxml2-devel libopenssl-devel fftw3-devel libqt5-qtbase-devel Mesa-libGL-devel Mesa-libGLU-devel libXmu-devel"

/-- Package command for Rocky and RHEL. -/
def dnfRockyCmd : String := "sudo dnf install -y cmake gcc gcc-c++ binutils libX11-devel libXpm-devel libXft-devel libXext-devel glew-devel libjpeg-turbo-devel libpng-devel libtiff-devel giflib-devel libxml2-devel openssl-devel fftw-devel qt5-qtbase-devel qt5-qttools-devel mesa-libGL-devel mesa-libGLU-devel libXmu-devel"

/-- Package command for Fedora when the kernel release starts with 41. -/
def dnf5FedoraCmd : String := "sudo dnf5 install -y cmake gcc gcc-c++ binutils qt5-qtbase-devel qt5-qttools-devel mesa-libGL-devel mesa-libGLU-devel libXmu-devel"

/-- Package command for Fedora otherwise. -/
def dnfFedoraCmd : String := "sudo dnf install -y cmake gcc gcc-c++ binutils qt5-qtbase-devel qt5-qttools-devel mesa-libGL-devel mesa-libGLU-devel libXmu-devel"

/-- Selection logic of install_packages: the chain of case-insensitive
substring tests in source order, none when no distro matches (the warning and
plain return path). -/
def install_packages_cmd (distro : String) (kernel : String) : Option String :=
  if strIn "arch" (pyLower distro) then some pacmanCmd
  else if strIn "ubuntu" (pyLower distro) || strIn "debian" (pyLower distro)
      || strIn "mint" (pyLower distro) then some aptCmd
  else if strIn "opensuse" (pyLower distro) then some zypperCmd
  else if strIn "rocky" (pyLower distro) || strIn "rhel" (pyLower distro) then some dnfRockyCmd
  else if strIn "fedora" (pyLower distro) then
    some (if strStarts "41" kernel then dnf5FedoraCmd else dnfFedoraCmd)
  else none

/-- Substrings the Dependency Installer recognizes, in source order. -/
def knownDistroSubs : List String := ["arch", "ubuntu", "debian", "mint", "opensuse", "rocky", "rhel", "fedora"]

/-- Modelled from the spec: the template the spec associates to each matched
substring, to be compared with the selection the code performs. -/
def specTemplateFor (n : String) (kernel : String) : String :=
  if n = "arch" then pacmanCmd
  else if n = "ubuntu" || n = "debian" || n = "mint" then aptCmd
  else if n = "opensuse" then zypperCmd
  else if n = "rocky" || n = "rhel" then dnfRockyCmd
  else if strStarts "41" kernel then dnf5FedoraCmd
  else dnfFedoraCmd

/-! Main flow install_geant4 (src/Alpha.py lines 114-212), as a deterministic
function of the environment that also records the external effects. -/

/-- External effects the script performs, in order: shell commands through
run_command, directory creation, directory changes, and the profile append. -/
inductive Ev where
  | cmd (c : String)
  | mkdir (d : String)
  | chdir (d : String)
  | bashrcAppend (s : String)
deriving DecidableEq

/-- Terminal outcome of a run. The first four and the two aborts and completed
end the process through sys.exit or by falling off main; the crashed and eof
outcomes are uncaught exceptions. -/
inductive RunResult where
  | windowsExit
  | noVersions
  | crashedIndex
  | eofInput
  | cmdFailed (c : String)
  | abortTarball
  | abortBuild
  | crashedAttr
  | crashedWrite
  | completed
deriving DecidableEq

/-- Process exit status each outcome produces: sys.exit(1) paths give 1,
sys.exit(0) and normal completion give 0, and none marks an uncaught
exception propagating out of the program rather than a controlled exit. -/
def pyExitCode : RunResult → Option Nat
  | .windowsExit => some 1
  | .noVersions => some 1
  | .cmdFailed _ => some 1
  | .abortTarball => some 0
  | .abortBuild => some 0
  | .completed => some 0
  | .crashedIndex => none
  | .eofInput => none
  | .crashedAttr => none
  | .crashedWrite => none

/-- Early-exit flow: an error carries the terminal outcome and the effect
trace accumulated so far. -/
abbrev M (α : Type) := Except (RunResult × List Ev) α

/-- Model of run_command: record the attempted shell command; a nonzero exit
status terminates the whole program with status 1. -/
def runCmd (env : Env) (c : String) (tr : List Ev) : M (List Ev) :=
  if env.cmdOk c then Except.ok (tr ++ [Ev.cmd c])
  else Except.error (RunResult.cmdFailed c, tr ++ [Ev.cmd c])

/-- Tarball filename derived from the chosen version. -/
def tarballName (v : String) : String := "geant4-v" ++ v ++ ".tar.gz"

/-- Download URL derived from the chosen version. -/
def tarUrl (v : String) : String :=
  "https://gitlab.cern.ch/geant4/geant4/-/archive/v" ++ v ++ "/" ++ tarballName v

/-- Source directory name derived from the chosen version. -/
def srcDirName (v : String) : String := "geant4-v" ++ v

/-- Build directory name derived from the chosen version. -/
def buildDirName (v : String) : String := "geant4-v" ++ v ++ "-build"

/-- Model of the two-argument os.path.join on POSIX: an absolute second
component replaces the first, an empty or slash-terminated first component
takes no separator, otherwise a slash is inserted. -/
def pyJoin (a b : String) : String :=
  if strStarts "/" b = true then b
  else if a = "" then a ++ b
  else if strEnds "/" a = true then a ++ b
  else a ++ "/" ++ b

/-- Install path of line 166: os.path.join of the script directory, Geant4,
and the versioned install directory name. -/
def installPath (scriptDir v : String) : String :=
  pyJoin (pyJoin scriptDir "Geant4") ("geant4-v" ++ v ++ "-install")

/-- Alias line the script appends to the shell profile. -/
def aliasLine (ip : String) : String :=
  "alias geant4make=\"source " ++ ip ++ "/share/Geant4/geant4make/geant4make.sh\""

/-- Exact text one run appends to the profile: newline, alias, newline. -/
def aliasBlock (ip : String) : String := "\n" ++ aliasLine ip ++ "\n"

/-- Effect of one successful run on the profile file contents. -/
def appendProfile (ip : String) (profile : String) : String := profile ++ aliasBlock ip

/-- Text appended after n successful runs. -/
def repeatBlock (ip : String) : Nat → String
  | 0 => ""
  | n + 1 => aliasBlock ip ++ repeatBlock ip n

/-- Tarball stage (lines 131-143): when the tarball exists, branch on the
stripped lowercased answer; r deletes then downloads, s keeps the file,
anything else aborts with status 0; when absent, download directly. -/
def stageTarball (env : Env) (v : String) (tr : List Ev) : M (List Ev) :=
  if env.tarballExists then
    if pyStripLower env.tarChoice = "r" then
      match runCmd env ("rm -f " ++ tarballName v) tr with
      | .error e => .error e
      | .ok tr1 => runCmd env ("wget " ++ tarUrl v) tr1
    else if pyStripLower env.tarChoice = "s" then .ok tr
    else .error (.abortTarball, tr)
  else runCmd env ("wget " ++ tarUrl v) tr

/-- Build-directory stage (lines 147-160): an existing non-empty directory
prompts; c clears and recreates it, s keeps it, anything else aborts with
status 0; an existing empty directory is used as is; a missing one is made. -/
def stageBuildDir (env : Env) (v : String) (tr : List Ev) : M (List Ev) :=
  if env.buildExists then
    if env.buildNonEmpty then
      if pyStripLower env.buildChoice = "c" then
        match runCmd env ("rm -rf " ++ buildDirName v) tr with
        | .error e => .error e
        | .ok tr1 => .ok (tr1 ++ [Ev.mkdir (buildDirName v)])
      else if pyStripLower env.buildChoice = "s" then .ok tr
      else .error (.abortBuild, tr)
    else .ok tr
  else .ok (tr ++ [Ev.mkdir (buildDirName v)])

/-- Dependency-installation stage (line 164 calling lines 93-111): a missing
distro string is Python None, whose lower() raises AttributeError; an
unrecognized distro only warns; otherwise the selected command runs. -/
def stagePackages (env : Env) (distro : Option String) (tr : List Ev) : M (List Ev) :=
  match distro with
  | none => .error (.crashedAttr, tr)
  | some d =>
    match install_packages_cmd d env.kernel with
    | none => .ok tr
    | some c => runCmd env c tr

/-- Final stage (lines 166-209): open the instructions, run the configuration
tool, prompt for cores, compile, install, and append the alias to the profile,
where a failing append is an uncaught IOError. -/
def stageFinish (env : Env) (v : String) (tr : List Ev) : M (List Ev) :=
  match runCmd env ("xdg-open " ++ env.tempPath) tr with
  | .error e => .error e
  | .ok tr1 =>
    match runCmd env ("ccmake ../" ++ srcDirName v) tr1 with
    | .error e => .error e
    | .ok tr2 =>
      match get_cpu_cores env.coreInputs with
      | none => .error (.eofInput, tr2)
      | some cores =>
        match runCmd env ("make -j" ++ toString cores) tr2 with
        | .error e => .error e
        | .ok tr3 =>
          match runCmd env "make install" tr3 with
          | .error e => .error e
          | .ok tr4 =>
            if env.bashrcOk then
              .ok (tr4 ++ [Ev.bashrcAppend (aliasBlock (installPath env.scriptDir v))])
            else .error (.crashedWrite, tr4)

/-- Pipeline after dependency installation. -/
def runAfterBuild (env : Env) (d2 : Option String) (v : String) (tr : List Ev) :
    RunResult × List Ev :=
  match stagePackages env d2 tr with
  | .error e => e
  | .ok tr1 =>
    match stageFinish env v tr1 with
    | .error e => e
    | .ok tr2 => (.completed, tr2)

/-- Pipeline after extraction: prepare the build directory, change into it,
then continue. -/
def runAfterExtract (env : Env) (d2 : Option String) (v : String) (tr : List Ev) :
    RunResult × List Ev :=
  match stageBuildDir env v tr with
  | .error e => e
  | .ok tr1 => runAfterBuild env d2 v (tr1 ++ [Ev.chdir (buildDirName v)])

/-- Pipeline after the tarball stage: extract, then continue. -/
def runAfterTarball (env : Env) (d2 : Option String) (v : String) (tr : List Ev) :
    RunResult × List Ev :=
  match runCmd env ("tar xzfv " ++ tarballName v) tr with
  | .error e => e
  | .ok tr1 => runAfterExtract env d2 v tr1

/-- Pipeline after a version is chosen. -/
def runAfterChoice (env : Env) (d2 : Option String) (v : String) (tr : List Ev) :
    RunResult × List Ev :=
  match stageTarball env v tr with
  | .error e => e
  | .ok tr1 => runAfterTarball env d2 v tr1

/-- Effect trace present before version selection: the working directory is
created and entered. -/
def tr0S (env : Env) : List Ev :=
  [Ev.mkdir (pyJoin env.scriptDir "Geant4"), Ev.chdir (pyJoin env.scriptDir "Geant4")]

/-- Model of install_geant4: detect the OS, refuse Windows with status 1,
prepare the working directory, resolve and choose a version (no versions is
fatal with status 1), then run the staged pipeline. -/
def run (env : Env) : RunResult × List Ev :=
  let d := detect_os env
  if d.1 = "Windows" then (.windowsExit, [])
  else
    let vs := sortedVersions env.httpText
    if vs = [] then (.noVersions, tr0S env)
    else
      match chooseVersion vs env.verInputs with
      | .eof => (.eofInput, tr0S env)
      | .idxErr => (.crashedIndex, tr0S env)
      | .ok v => runAfterChoice env d.2 v (tr0S env)

/-- Trace growth property: every command in the second trace was either
already in the first trace or exited with status zero. -/
def NK (env : Env) (tr tr2 : List Ev) : Prop :=
  ∀ c, Ev.cmd c ∈ tr2 → Ev.cmd c ∈ tr ∨ env.cmdOk c = true

/-- Trace carried by a stage result, whether the stage returned or exited. -/
def mTrace : M (List Ev) → List Ev
  | .ok tr => tr
  | .error e => e.2

/-- Shell commands the pipeline can issue after the tarball stage. -/
def postTarballCmd (env : Env) (v : String) (c : String) : Prop :=
  c = "tar xzfv " ++ tarballName v ∨
  c = "rm -rf " ++ buildDirName v ∨
  c = pacmanCmd ∨ c = aptCmd ∨ c = zypperCmd ∨ c = dnfRockyCmd ∨
  c = dnf5FedoraCmd ∨ c = dnfFedoraCmd ∨
  c = "xdg-open " ++ env.tempPath ∨
  c = "ccmake ../" ++ srcDirName v ∨
  (∃ k : Int, c = "make -j" ++ toString k) ∨
  c = "make install"

/-- Answer to the core prompt that the loop rejects: non-numeric text or an
integer that is not positive. -/
def invalidCore (s : String) : Bool :=
  match pyToInt? s with
  | some j => decide (j ≤ 0)
  | none => true

/-- Concrete environment used to evaluate the model at specific inputs. -/
def baseEnv : Env :=
  { osName := "Linux"
    osIsNt := false
    kernel := "6.8.0"
    lsb := some "Arch Linux"
    osRelease := none
    httpText := "v1.2"
    verInputs := ["1"]
    tarballExists := false
    tarChoice := ""
    buildExists := false
    buildNonEmpty := false
    buildChoice := ""
    coreInputs := ["2"]
    tempPath := "/tmp/instr.txt"
    cmdOk := fun _ => true
    bashrcOk := true
    scriptDir := "/opt/tools" }

/-- Concrete environment where the tarball exists and the user answers S. -/
def c5env : Env := { baseEnv with tarballExists := true, tarChoice := "S" }

/-- Concrete environment where the tarball exists, the user keeps it, and the
build directory exists non-empty with answer C. -/
def c6env : Env :=
  { baseEnv with
      tarballExists := true
      tarChoice := "S"
      buildExists := true
      buildNonEmpty := true
      buildChoice := "C" }

/-! Theorems. First the order properties of the version sort. -/

theorem keyLt_irrefl (a : List Nat) : keyLt a a = false := by
  induction a with
  | nil => rfl
  | cons x xs ih => simp [keyLt, ih]

theorem keyLt_trans : ∀ a b c : List Nat,
    keyLt a b = true → keyLt b c = true → keyLt a c = true
  | [], _ :: _, _ :: _, _, _ => rfl
  | [], [], _, h, _ => by simp [keyLt] at h
  | [], _ :: _, [], _, h => by simp [keyLt] at h
  | _ :: _, [], _, h, _ => by simp [keyLt] at h
  | _ :: _, _ :: _, [], _, h => by simp [keyLt] at h
  | a :: as, b :: bs, c :: cs, h1, h2 => by
    simp only [keyLt] at h1 h2 ⊢
    by_cases hab : a < b
    · by_cases hbc : b < c
      · simp [Nat.lt_trans hab hbc]
      · by_cases hcb : c < b
        · simp [hbc, hcb] at h2
        · have hbceq : b = c := by omega
          subst hbceq
          simp [hab]
    · by_cases hba : b < a
      · simp [hab, hba] at h1
      · have habeq : a = b := by omega
        subst habeq
        simp only [Nat.lt_irrefl, if_false] at h1
        by_cases hac : a < c
        · simp [hac]
        · by_cases hca : c < a
          · simp [hac, hca] at h2
          · have haceq : a = c := by omega
            subst haceq
            simp only [Nat.lt_irrefl, if_false] at h2 ⊢
            exact keyLt_trans as bs cs h1 h2

theorem keyLt_conn : ∀ a b : List Nat,
    keyLt a b = false → keyLt b a = false → a = b
  | [], [], _, _ => rfl
  | [], _ :: _, h1, _ => by simp [keyLt] at h1
  | _ :: _, [], _, h2 => by simp [keyLt] at h2
  | a :: as, b :: bs, h1, h2 => by
    simp only [keyLt] at h1 h2
    by_cases hab : a < b
    · simp [hab] at h1
    · by_cases hba : b < a
      · simp [hab, hba] at h2
      · have habeq : a = b := by omega
        subst habeq
        simp only [Nat.lt_irrefl, if_false] at h1 h2
        rw [keyLt_conn as bs h1 h2]

theorem insDesc_perm (x : String) (l : List String) : (insDesc x l).Perm (x :: l) := by
  induction l with
  | nil => exact List.Perm.refl _
  | cons y ys ih =>
    simp only [insDesc]
    split
    · exact List.Perm.refl _
    · exact (ih.cons y).trans (List.Perm.swap x y ys)

theorem sortDescAux_perm : ∀ (l acc : List String),
    (List.foldl (fun a x => insDesc x a) acc l).Perm (acc ++ l)
  | [], acc => by simp
  | x :: xs, acc => by
    have h1 := sortDescAux_perm xs (insDesc x acc)
    have h2 : (insDesc x acc ++ xs).Perm (acc ++ x :: xs) :=
      (((insDesc_perm x acc).append_right xs).trans List.perm_middle.symm)
    exact h1.trans h2

theorem sortDesc_perm (l : List String) : (sortDesc l).Perm l := by
  simpa using sortDescAux_perm l []

theorem insDesc_pairwise (x : String) {l : List String} (h : l.Pairwise DescP) :
    (insDesc x l).Pairwise DescP := by
  induction l with
  | nil => simp [insDesc, List.pairwise_singleton]
  | cons y ys ih =>
    rcases List.pairwise_cons.mp h with ⟨hy, hys⟩
    simp only [insDesc]
    split
    · rename_i hxy
      refine List.pairwise_cons.mpr ⟨?_, h⟩
      intro z hz
      rcases List.mem_cons.mp hz with hzy | hzys
      · subst hzy
        unfold DescP
        cases hc : keyLt (verKey x) (verKey z) with
        | false => rfl
        | true =>
          have := keyLt_trans _ _ _ hxy hc
          rw [keyLt_irrefl] at this
          exact absurd this (by simp)
      · unfold DescP
        cases hc : keyLt (verKey x) (verKey z) with
        | false => rfl
        | true =>
          have hyz := keyLt_trans _ _ _ hxy hc
          have := hy z hzys
          unfold DescP at this
          rw [this] at hyz
          exact absurd hyz (by simp)
    · rename_i hxy
      refine List.pairwise_cons.mpr ⟨?_, ih hys⟩
      intro z hz
      rcases List.mem_cons.mp ((insDesc_perm x ys).mem_iff.mp hz) with hzx | hzys
      · subst hzx
        unfold DescP
        exact Bool.not_eq_true _ ▸ (eq_false_of_ne_true hxy)
      · exact hy z hzys

theorem sortDescAux_pairwise : ∀ (l acc : List String),
    acc.Pairwise DescP → (List.foldl (fun a x => insDesc x a) acc l).Pairwise DescP
  | [], _, h => h
  | x :: xs, acc, h => sortDescAux_pairwise xs (insDesc x acc) (insDesc_pairwise x h)

theorem sortDesc_pairwise (l : List String) : (sortDesc l).Pairwise DescP :=
  sortDescAux_pairwise l [] (List.Pairwise.nil)

theorem not_mem_dedupAcc {y : String} : ∀ (l seen : List String),
    y ∈ seen → y ∉ dedupAcc seen l := by
  intro l
  induction l with
  | nil => intro seen _; simp [dedupAcc]
  | cons x xs ih =>
    intro seen hy
    simp only [dedupAcc]
    split
    · exact ih seen hy
    · rename_i hx
      have hxs : x ∉ seen := by simpa using hx
      simp only [List.mem_cons, not_or]
      exact ⟨fun he => hxs (he ▸ hy), ih (x :: seen) (List.mem_cons_of_mem x hy)⟩

theorem dedupAcc_nodup : ∀ (l seen : List String), (dedupAcc seen l).Nodup := by
  intro l
  induction l with
  | nil => intro seen; simp [dedupAcc]
  | cons x xs ih =>
    intro seen
    simp only [dedupAcc]
    split
    · exact ih seen
    · exact List.nodup_cons.mpr ⟨not_mem_dedupAcc xs (x :: seen) (List.mem_cons_self x seen), ih (x :: seen)⟩

theorem pyDedup_nodup (l : List String) : (pyDedup l).Nodup := dedupAcc_nodup l []

/-- C1. For every HTTP response text, the Version Resolver's displayed list is
descending under the numeric tuple comparison of the source's sort key, has no
duplicate entries, and has length min(5, number of distinct versions found);
it is strictly descending under the proviso (which the original claim lacks)
that no two distinct extracted version strings share the same numeric tuple,
as leading zeros in version components can produce equal tuples. -/
theorem c1_version_menu (text : String) :
    (displayedVersions text).Nodup ∧
    (displayedVersions text).Pairwise DescP ∧
    (displayedVersions text).length = min 5 (pyDedup (scanVers text.data)).length ∧
    ((∀ a ∈ pyDedup (scanVers text.data), ∀ b ∈ pyDedup (scanVers text.data),
        verKey a = verKey b → a = b) →
      (displayedVersions text).Pairwise StrictDescP) := by
  have hperm := sortDesc_perm (pyDedup (scanVers text.data))
  have hnodup : (sortedVersions text).Nodup :=
    hperm.nodup_iff.mpr (pyDedup_nodup (scanVers text.data))
  have hpair : (sortedVersions text).Pairwise DescP :=
    sortDesc_pairwise (pyDedup (scanVers text.data))
  have hsub : List.Sublist (displayedVersions text) (sortedVersions text) :=
    List.take_sublist 5 _
  refine ⟨hnodup.sublist hsub, hpair.sublist hsub, ?_, ?_⟩
  · unfold displayedVersions sortedVersions
    rw [List.length_take, hperm.length_eq]
  · intro hinj
    have hne : (sortedVersions text).Pairwise (fun a b => a ≠ b) := hnodup
    have hstrict : (sortedVersions text).Pairwise StrictDescP := by
      refine (hpair.and hne).imp_of_mem ?_
      intro a b ha hb hab
      have hamem : a ∈ pyDedup (scanVers text.data) := hperm.subset ha
      have hbmem : b ∈ pyDedup (scanVers text.data) := hperm.subset hb
      unfold StrictDescP
      cases hc : keyLt (verKey b) (verKey a) with
      | true => rfl
      | false =>
        have : a = b := hinj a hamem b hbmem (keyLt_conn _ _ hab.1 hc)
        exact absurd this hab.2
    exact hstrict.sublist hsub

/-- C1 witness: on a concrete tags page with distinct numeric tuples, the
displayed menu is duplicate-free and strictly descending. -/
theorem c1_version_menu_witness :
    (displayedVersions "v9.8 v7.6.5").Nodup ∧
    (displayedVersions "v9.8 v7.6.5").Pairwise StrictDescP :=
  ⟨(c1_version_menu "v9.8 v7.6.5").1, (c1_version_menu "v9.8 v7.6.5").2.2.2 (by decide)⟩

/-- C1 counterexample: the page text containing v1.1 and v1.01 yields two
distinct menu entries with equal numeric tuples, so the displayed sequence is
not strictly descending under numeric tuple comparison, refuting the claim as
stated. -/
theorem c1_strict_counterexample :
    displayedVersions "v1.1 v1.01" = ["1.1", "1.01"] ∧
    ¬ (displayedVersions "v1.1 v1.01").Pairwise StrictDescP := by
  constructor
  · rfl
  · intro h
    rw [show displayedVersions "v1.1 v1.01" = ["1.1", "1.01"] from rfl] at h
    have := (List.pairwise_cons.mp h).1 "1.01" (by simp)
    unfold StrictDescP at this
    exact absurd this (by decide)

/-! OS and distro detection, claim C2. -/

theorem scanPretty_eq_none (lines : List String) :
    scanPretty lines = none ↔ ∀ l ∈ lines, strStarts "PRETTY_NAME" l = false := by
  induction lines with
  | nil => simp [scanPretty]
  | cons l ls ih =>
    simp only [scanPretty]
    split
    · rename_i hst
      constructor
      · intro h
        split at h <;> simp at h
      · intro h
        have := h l (by simp)
        simp [this] at hst
    · rename_i hst
      rw [ih]
      constructor
      · intro h m hm
        rcases List.mem_cons.mp hm with rfl | hms
        · exact Bool.eq_false_iff.mpr hst
        · exact h m hms
      · intro h m hm
        exact h m (List.mem_cons_of_mem _ hm)

/-- C2 (amended). The OS/Distro Detector is a total function: for every
environment it returns an OS-type classification together with a distro value,
yielding N/A when the reported OS is not Linux, the cleaned lsb_release output
when that tool succeeds, and Unknown when both detection paths raise (all
exceptions are swallowed); however, when the release file is readable but
contains no PRETTY_NAME line it returns no string at all (Python None) rather
than Unknown, which is the one divergence from the original claim. -/
theorem c2_os_detector (env : Env) :
    (env.osName ≠ "Linux" → (detect_os env).2 = some "N/A") ∧
    (∀ out, env.osName = "Linux" → env.lsb = some out →
      (detect_os env).2 = some (pyStripChar '"' (pyStrip out))) ∧
    (env.osName = "Linux" → env.lsb = none → env.osRelease = none →
      (detect_os env).2 = some "Unknown") ∧
    ((detect_os env).2 = none ↔
      env.osName = "Linux" ∧ env.lsb = none ∧
      ∃ lines, env.osRelease = some lines ∧
        ∀ l ∈ lines, strStarts "PRETTY_NAME" l = false) := by
  refine ⟨?_, ?_, ?_, ?_⟩
  · intro h
    simp [detect_os, h]
  · intro out h1 h2
    simp [detect_os, h1, h2, get_linux_distro]
  · intro h1 h2 h3
    simp [detect_os, h1, h2, h3, get_linux_distro]
  · by_cases hos : env.osName = "Linux"
    · cases hlsb : env.lsb with
      | some out => simp [detect_os, hos, hlsb, get_linux_distro]
      | none =>
        cases hrel : env.osRelease with
        | none => simp [detect_os, hos, hlsb, hrel, get_linux_distro]
        | some lines =>
          simp [detect_os, hos, hlsb, hrel, get_linux_distro, scanPretty_eq_none]
    · simp [detect_os, hos]

/-- C2 witness: a non-Linux environment gets the N/A distro value. -/
theorem c2_os_detector_witness :
    (detect_os { baseEnv with osName := "Darwin" }).2 = some "N/A" :=
  (c2_os_detector { baseEnv with osName := "Darwin" }).1 (by decide)

/-- C2 counterexample: on Linux with lsb_release failing and a readable
release file lacking a PRETTY_NAME line, the detector yields no distro string
at all, refuting the claim that it always returns a distro description string
(with Unknown on detection failure). -/
theorem c2_none_counterexample :
    (detect_os { baseEnv with lsb := none, osRelease := some ["ID=gentoo"] }).2 = none ∧
    ¬ ∃ s, (detect_os { baseEnv with lsb := none, osRelease := some ["ID=gentoo"] }).2 = some s := by
  refine ⟨rfl, ?_⟩
  rintro ⟨s, hs⟩
  rw [show (detect_os { baseEnv with lsb := none, osRelease := some ["ID=gentoo"] }).2 = none from rfl] at hs
  cases hs

/-! CPU-core prompt, claim C7. -/

/-- C7. For every input stream to the CPU-core prompt, each non-numeric or
non-positive answer makes the loop ask again (so a stream of only invalid
answers never produces a value), and the first answer that parses as a
positive integer is returned exactly. -/
theorem c7_cpu_prompt :
    (∀ (pre post : List String) (g : String) (k : Int),
      (∀ s ∈ pre, invalidCore s = true) →
      pyToInt? g = some k → 0 < k →
      get_cpu_cores (pre ++ g :: post) = some k) ∧
    (∀ inputs : List String,
      (∀ s ∈ inputs, invalidCore s = true) →
      get_cpu_cores inputs = none) := by
  constructor
  · intro pre post g k hpre hg hk
    induction pre with
    | nil => simp [get_cpu_cores, hg, hk]
    | cons s ss ih =>
      have hs := hpre s (by simp)
      have hrest : ∀ t ∈ ss, invalidCore t = true := fun t ht => hpre t (by simp [ht])
      simp only [List.cons_append, get_cpu_cores]
      unfold invalidCore at hs
      cases hp : pyToInt? s with
      | none => exact ih hrest
      | some j =>
        rw [hp] at hs
        have hj : j ≤ 0 := of_decide_eq_true hs
        have : ¬ (0 < j) := by omega
        simp [this]
        exact ih hrest
  · intro inputs hall
    induction inputs with
    | nil => rfl
    | cons s ss ih =>
      have hs := hall s (by simp)
      have hrest : ∀ t ∈ ss, invalidCore t = true := fun t ht => hall t (by simp [ht])
      simp only [get_cpu_cores]
      unfold invalidCore at hs
      cases hp : pyToInt? s with
      | none => exact ih hrest
      | some j =>
        rw [hp] at hs
        have hj : j ≤ 0 := of_decide_eq_true hs
        have : ¬ (0 < j) := by omega
        simp [this]
        exact ih hrest

/-- C7 witness: three invalid answers are re-asked and the first positive
integer, 4, is returned exactly. -/
theorem c7_cpu_prompt_witness :
    get_cpu_cores (["abc", "0", "-3"] ++ "4" :: ["9"]) = some 4 :=
  c7_cpu_prompt.1 ["abc", "0", "-3"] ["9"] "4" 4 (by decide) (by decide) (by decide)

/-! Dependency Installer, claim C3. -/

/-- C3. For every distro string containing, case-insensitively, exactly one
of the known substrings, install_packages selects exactly the one fixed
package-manager command matching that substring, with the Fedora command
chosen by whether the kernel release starts with 41; for every distro string
containing none of them, no command is selected and the dependency stage
returns without executing anything and without terminating the program. -/
theorem c3_dependency_dispatch (distro kernel : String) :
    (∀ n ∈ knownDistroSubs, strIn n (pyLower distro) = true →
      (∀ m ∈ knownDistroSubs, m ≠ n → strIn m (pyLower distro) = false) →
      install_packages_cmd distro kernel = some (specTemplateFor n kernel)) ∧
    ((∀ m ∈ knownDistroSubs, strIn m (pyLower distro) = false) →
      install_packages_cmd distro kernel = none ∧
      ∀ (env : Env) (tr : List Ev), stagePackages env (some distro) tr = Except.ok tr) := by
  constructor
  · intro n hn hin huniq
    simp only [knownDistroSubs, List.mem_cons, List.not_mem_nil, or_false] at hn
    rcases hn with rfl | rfl | rfl | rfl | rfl | rfl | rfl | rfl
    · simp [install_packages_cmd, hin, specTemplateFor]
    · have h1 := huniq "arch" (by decide) (by decide)
      simp [install_packages_cmd, h1, hin, specTemplateFor]
    · have h1 := huniq "arch" (by decide) (by decide)
      simp [install_packages_cmd, h1, hin, specTemplateFor]
    · have h1 := huniq "arch" (by decide) (by decide)
      simp [install_packages_cmd, h1, hin, specTemplateFor]
    · have h1 := huniq "arch" (by decide) (by decide)
      have h2 := huniq "ubuntu" (by decide) (by decide)
      have h3 := huniq "debian" (by decide) (by decide)
      have h4 := huniq "mint" (by decide) (by decide)
      simp [install_packages_cmd, h1, h2, h3, h4, hin, specTemplateFor]
    · have h1 := huniq "arch" (by decide) (by decide)
      have h2 := huniq "ubuntu" (by decide) (by decide)
      have h3 := huniq "debian" (by decide) (by decide)
      have h4 := huniq "mint" (by decide) (by decide)
      have h5 := huniq "opensuse" (by decide) (by decide)
      simp [install_packages_cmd, h1, h2, h3, h4, h5, hin, specTemplateFor]
    · have h1 := huniq "arch" (by decide) (by decide)
      have h2 := huniq "ubuntu" (by decide) (by decide)
      have h3 := huniq "debian" (by decide) (by decide)
      have h4 := huniq "mint" (by decide) (by decide)
      have h5 := huniq "opensuse" (by decide) (by decide)
      simp [install_packages_cmd, h1, h2, h3, h4, h5, hin, specTemplateFor]
    · have h1 := huniq "arch" (by decide) (by decide)
      have h2 := huniq "ubuntu" (by decide) (by decide)
      have h3 := huniq "debian" (by decide) (by decide)
      have h4 := huniq "mint" (by decide) (by decide)
      have h5 := huniq "opensuse" (by decide) (by decide)
      have h6 := huniq "rocky" (by decide) (by decide)
      have h7 := huniq "rhel" (by decide) (by decide)
      simp [install_packages_cmd, h1, h2, h3, h4, h5, h6, h7, hin, specTemplateFor]
  · intro hall
    have h1 := hall "arch" (by decide)
    have h2 := hall "ubuntu" (by decide)
    have h3 := hall "debian" (by decide)
    have h4 := hall "mint" (by decide)
    have h5 := hall "opensuse" (by decide)
    have h6 := hall "rocky" (by decide)
    have h7 := hall "rhel" (by decide)
    have h8 := hall "fedora" (by decide)
    refine ⟨by simp [install_packages_cmd, h1, h2, h3, h4, h5, h6, h7, h8], ?_⟩
    intro env tr
    have hnone : install_packages_cmd distro env.kernel = none := by
      simp [install_packages_cmd, h1, h2, h3, h4, h5, h6, h7, h8]
    simp [stagePackages, hnone]

/-- C3 witness: the distro string Ubuntu 22.04.3 LTS contains exactly the
known substring ubuntu and selects the apt command. -/
theorem c3_dependency_dispatch_witness :
    install_packages_cmd "Ubuntu 22.04.3 LTS" "6.8.0" =
      some (specTemplateFor "ubuntu" "6.8.0") :=
  (c3_dependency_dispatch "Ubuntu 22.04.3 LTS" "6.8.0").1 "ubuntu"
    (by decide) (by decide) (by decide)

/-! Invariant lemmas about the staged pipeline. -/

theorem runCmd_ok {env : Env} {c : String} {tr tr2 : List Ev}
    (h : runCmd env c tr = Except.ok tr2) :
    env.cmdOk c = true ∧ tr2 = tr ++ [Ev.cmd c] := by
  unfold runCmd at h
  split at h
  · rename_i hc
    injection h with h2
    exact ⟨hc, h2.symm⟩
  · exact Except.noConfusion h

theorem runCmd_err {env : Env} {c : String} {tr : List Ev} {r : RunResult} {tr2 : List Ev}
    (h : runCmd env c tr = Except.error (r, tr2)) :
    env.cmdOk c = false ∧ r = RunResult.cmdFailed c ∧ tr2 = tr ++ [Ev.cmd c] := by
  unfold runCmd at h
  split at h
  · exact Except.noConfusion h
  · rename_i hc
    injection h with h2
    injection h2 with ha hb
    exact ⟨Bool.eq_false_iff.mpr hc, ha.symm, hb.symm⟩

theorem NK_refl (env : Env) (tr : List Ev) : NK env tr tr := fun _ h => Or.inl h

theorem NK_trans {env : Env} {t1 t2 t3 : List Ev} (h1 : NK env t1 t2) (h2 : NK env t2 t3) :
    NK env t1 t3 := fun c hc => (h2 c hc).elim (fun h => h1 c h) Or.inr

theorem NK_append {env : Env} (tr : List Ev) {l : List Ev}
    (h : ∀ c, Ev.cmd c ∈ l → env.cmdOk c = true) : NK env tr (tr ++ l) := by
  intro c hc
  rcases List.mem_append.mp hc with h1 | h2
  · exact Or.inl h1
  · exact Or.inr (h c h2)

theorem stageTarball_ok_NK {env : Env} {v : String} {tr tr2 : List Ev}
    (h : stageTarball env v tr = Except.ok tr2) : NK env tr tr2 := by
  unfold stageTarball at h
  split at h
  · split at h
    · cases hrm : runCmd env ("rm -f " ++ tarballName v) tr with
      | error e =>
        rw [hrm] at h
        exact Except.noConfusion h
      | ok tr1 =>
        rw [hrm] at h
        obtain ⟨h1, rfl⟩ := runCmd_ok hrm
        obtain ⟨h2, rfl⟩ := runCmd_ok h
        rw [List.append_assoc]
        refine NK_append tr ?_
        intro c hc
        rcases List.mem_append.mp hc with hc1 | hc2
        · simp at hc1
          rw [hc1]
          exact h1
        · simp at hc2
          rw [hc2]
          exact h2
    · split at h
      · injection h with h2
        subst h2
        exact NK_refl env tr
      · exact Except.noConfusion h
  · obtain ⟨h1, rfl⟩ := runCmd_ok h
    refine NK_append tr ?_
    intro c hc
    simp at hc
    rw [hc]
    exact h1

theorem stageTarball_err {env : Env} {v : String} {tr : List Ev} {r : RunResult} {tr2 : List Ev}
    (h : stageTarball env v tr = Except.error (r, tr2)) :
    (∃ c, r = RunResult.cmdFailed c ∧ env.cmdOk c = false) ∨
    (r = RunResult.abortTarball ∧ tr2 = tr) := by
  unfold stageTarball at h
  split at h
  · split at h
    · cases hrm : runCmd env ("rm -f " ++ tarballName v) tr with
      | error e =>
        rw [hrm] at h
        injection h with h2
        obtain rfl := h2
        obtain ⟨hc, hr, ht⟩ := runCmd_err hrm
        exact Or.inl ⟨_, hr, hc⟩
      | ok tr1 =>
        rw [hrm] at h
        obtain ⟨hc, hr, ht⟩ := runCmd_err h
        exact Or.inl ⟨_, hr, hc⟩
    · split at h
      · exact Except.noConfusion h
      · injection h with h2
        injection h2 with ha hb
        exact Or.inr ⟨ha.symm, hb.symm⟩
  · obtain ⟨hc, hr, ht⟩ := runCmd_err h
    exact Or.inl ⟨_, hr, hc⟩

theorem stageBuildDir_ok_NK {env : Env} {v : String} {tr tr2 : List Ev}
    (h : stageBuildDir env v tr = Except.ok tr2) : NK env tr tr2 := by
  unfold stageBuildDir at h
  split at h
  · split at h
    · split at h
      · cases hrm : runCmd env ("rm -rf " ++ buildDirName v) tr with
        | error e =>
          rw [hrm] at h
          exact Except.noConfusion h
        | ok tr1 =>
          rw [hrm] at h
          injection h with h2
          subst h2
          obtain ⟨h1, rfl⟩ := runCmd_ok hrm
          rw [List.append_assoc]
          refine NK_append tr ?_
          intro c hc
          rcases List.mem_append.mp hc with hc1 | hc2
          · simp at hc1
            rw [hc1]
            exact h1
          · simp at hc2
      · split at h
        · injection h with h2
          subst h2
          exact NK_refl env tr
        · exact Except.noConfusion h
    · injection h with h2
      subst h2
      exact NK_refl env tr
  · injection h with h2
    subst h2
    refine NK_append tr ?_
    intro c hc
    simp at hc

theorem stageBuildDir_err {env : Env} {v : String} {tr : List Ev} {r : RunResult} {tr2 : List Ev}
    (h : stageBuildDir env v tr = Except.error (r, tr2)) :
    (∃ c, r = RunResult.cmdFailed c ∧ env.cmdOk c = false) ∨
    (r = RunResult.abortBuild ∧ tr2 = tr) := by
  unfold stageBuildDir at h
  split at h
  · split at h
    · split at h
      · cases hrm : runCmd env ("rm -rf " ++ buildDirName v) tr with
        | error e =>
          rw [hrm] at h
          injection h with h2
          obtain rfl := h2
          obtain ⟨hc, hr, ht⟩ := runCmd_err hrm
          exact Or.inl ⟨_, hr, hc⟩
        | ok tr1 =>
          rw [hrm] at h
          exact Except.noConfusion h
      · split at h
        · exact Except.noConfusion h
        · injection h with h2
          injection h2 with ha hb
          exact Or.inr ⟨ha.symm, hb.symm⟩
    · exact Except.noConfusion h
  · exact Except.noConfusion h

theorem stagePackages_ok_NK {env : Env} {d2 : Option String} {tr tr2 : List Ev}
    (h : stagePackages env d2 tr = Except.ok tr2) : NK env tr tr2 := by
  unfold stagePackages at h
  split at h
  · exact Except.noConfusion h
  · split at h
    · injection h with h2
      subst h2
      exact NK_refl env tr
    · obtain ⟨h1, rfl⟩ := runCmd_ok h
      refine NK_append tr ?_
      intro c2 hc
      simp at hc
      rw [hc]
      exact h1

theorem stagePackages_err {env : Env} {d2 : Option String} {tr : List Ev} {r : RunResult}
    {tr2 : List Ev} (h : stagePackages env d2 tr = Except.error (r, tr2)) :
    (∃ c, r = RunResult.cmdFailed c ∧ env.cmdOk c = false) ∨
    (r = RunResult.crashedAttr ∧ tr2 = tr) := by
  unfold stagePackages at h
  split at h
  · injection h with h2
    injection h2 with ha hb
    exact Or.inr ⟨ha.symm, hb.symm⟩
  · split at h
    · exact Except.noConfusion h
    · obtain ⟨hc, hr, ht⟩ := runCmd_err h
      exact Or.inl ⟨_, hr, hc⟩

theorem NK_snoc_cmd {env : Env} (tr : List Ev) {c : String} (h : env.cmdOk c = true) :
    NK env tr (tr ++ [Ev.cmd c]) := by
  refine NK_append tr ?_
  intro c2 hc
  simp at hc
  rw [hc]
  exact h

theorem NK_snoc_misc {env : Env} (tr : List Ev) (e : Ev) (h : ∀ c, e ≠ Ev.cmd c) :
    NK env tr (tr ++ [e]) := by
  refine NK_append tr ?_
  intro c2 hc
  simp at hc
  exact absurd hc.symm (h c2)

theorem stageFinish_ok_NK {env : Env} {v : String} {tr tr2 : List Ev}
    (h : stageFinish env v tr = Except.ok tr2) : NK env tr tr2 := by
  unfold stageFinish at h
  split at h
  · exact Except.noConfusion h
  · rename_i tra h1
    split at h
    · exact Except.noConfusion h
    · rename_i trb h2
      split at h
      · exact Except.noConfusion h
      · rename_i cores h3
        split at h
        · exact Except.noConfusion h
        · rename_i trc h4
          split at h
          · exact Except.noConfusion h
          · rename_i trd h5
            split at h
            · rename_i hbash
              injection h with h6
              subst h6
              obtain ⟨hx, rfl⟩ := runCmd_ok h1
              obtain ⟨hcc, rfl⟩ := runCmd_ok h2
              obtain ⟨hmk, rfl⟩ := runCmd_ok h4
              obtain ⟨hmi, rfl⟩ := runCmd_ok h5
              exact NK_trans (NK_snoc_cmd tr hx)
                (NK_trans (NK_snoc_cmd _ hcc)
                  (NK_trans (NK_snoc_cmd _ hmk)
                    (NK_trans (NK_snoc_cmd _ hmi)
                      (NK_snoc_misc _ _ (by intro c hcon; cases hcon)))))
            · exact Except.noConfusion h

theorem stageFinish_err {env : Env} {v : String} {tr : List Ev} {r : RunResult} {tr2 : List Ev}
    (h : stageFinish env v tr = Except.error (r, tr2)) :
    (∃ c, r = RunResult.cmdFailed c ∧ env.cmdOk c = false) ∨
    ((r = RunResult.eofInput ∨ r = RunResult.crashedWrite) ∧ NK env tr tr2) := by
  unfold stageFinish at h
  split at h
  · rename_i e h1
    injection h with ha
    obtain rfl := ha
    obtain ⟨hc, hr, ht⟩ := runCmd_err h1
    exact Or.inl ⟨_, hr, hc⟩
  · rename_i tra h1
    split at h
    · rename_i e h2
      injection h with ha
      obtain rfl := ha
      obtain ⟨hx, rfl⟩ := runCmd_ok h1
      obtain ⟨hc, hr, ht⟩ := runCmd_err h2
      exact Or.inl ⟨_, hr, hc⟩
    · rename_i trb h2
      split at h
      · rename_i h3
        injection h with ha
        injection ha with hb hcq
        obtain ⟨hx, rfl⟩ := runCmd_ok h1
        obtain ⟨hcc, rfl⟩ := runCmd_ok h2
        refine Or.inr ⟨Or.inl hb.symm, ?_⟩
        subst hcq
        exact NK_trans (NK_snoc_cmd tr hx) (NK_snoc_cmd _ hcc)
      · rename_i cores h3
        split at h
        · rename_i e h4
          injection h with ha
          obtain rfl := ha
          obtain ⟨hx, rfl⟩ := runCmd_ok h1
          obtain ⟨hcc, rfl⟩ := runCmd_ok h2
          obtain ⟨hc, hr, ht⟩ := runCmd_err h4
          exact Or.inl ⟨_, hr, hc⟩
        · rename_i trc h4
          split at h
          · rename_i e h5
            injection h with ha
            obtain rfl := ha
            obtain ⟨hx, rfl⟩ := runCmd_ok h1
            obtain ⟨hcc, rfl⟩ := runCmd_ok h2
            obtain ⟨hmk, rfl⟩ := runCmd_ok h4
            obtain ⟨hc, hr, ht⟩ := runCmd_err h5
            exact Or.inl ⟨_, hr, hc⟩
          · rename_i trd h5
            split at h
            · exact Except.noConfusion h
            · injection h with ha
              injection ha with hb hcq
              obtain ⟨hx, rfl⟩ := runCmd_ok h1
              obtain ⟨hcc, rfl⟩ := runCmd_ok h2
              obtain ⟨hmk, rfl⟩ := runCmd_ok h4
              obtain ⟨hmi, rfl⟩ := runCmd_ok h5
              refine Or.inr ⟨Or.inr hb.symm, ?_⟩
              subst hcq
              exact NK_trans (NK_snoc_cmd tr hx)
                (NK_trans (NK_snoc_cmd _ hcc)
                  (NK_trans (NK_snoc_cmd _ hmk) (NK_snoc_cmd _ hmi)))

theorem runAfterBuild_inv (env : Env) (d2 : Option String) (v : String) (tr : List Ev) :
    (∃ c, (runAfterBuild env d2 v tr).1 = RunResult.cmdFailed c ∧ env.cmdOk c = false) ∨
    ((∀ c, (runAfterBuild env d2 v tr).1 ≠ RunResult.cmdFailed c) ∧
      NK env tr (runAfterBuild env d2 v tr).2) := by
  unfold runAfterBuild
  split
  · rename_i e hp
    obtain ⟨r, t⟩ := e
    dsimp only
    rcases stagePackages_err hp with ⟨c, hr, hb⟩ | ⟨hr, ht⟩
    · exact Or.inl ⟨c, hr, hb⟩
    · subst hr
      rw [ht]
      exact Or.inr ⟨fun c hcon => RunResult.noConfusion hcon, NK_refl env _⟩
  · rename_i tr1 hp
    split
    · rename_i e hf
      obtain ⟨r, t⟩ := e
      dsimp only
      rcases stageFinish_err hf with ⟨c, hr, hb⟩ | ⟨hr, hnk⟩
      · exact Or.inl ⟨c, hr, hb⟩
      · refine Or.inr ⟨?_, NK_trans (stagePackages_ok_NK hp) hnk⟩
        intro c hcon
        rcases hr with hr | hr <;> (subst hr; exact RunResult.noConfusion hcon)
    · rename_i tr2 hf
      dsimp only
      exact Or.inr ⟨fun c hcon => RunResult.noConfusion hcon,
        NK_trans (stagePackages_ok_NK hp) (stageFinish_ok_NK hf)⟩

theorem runAfterExtract_inv (env : Env) (d2 : Option String) (v : String) (tr : List Ev) :
    (∃ c, (runAfterExtract env d2 v tr).1 = RunResult.cmdFailed c ∧ env.cmdOk c = false) ∨
    ((∀ c, (runAfterExtract env d2 v tr).1 ≠ RunResult.cmdFailed c) ∧
      NK env tr (runAfterExtract env d2 v tr).2) := by
  unfold runAfterExtract
  split
  · rename_i e hb
    obtain ⟨r, t⟩ := e
    dsimp only
    rcases stageBuildDir_err hb with ⟨c, hr, hf⟩ | ⟨hr, ht⟩
    · exact Or.inl ⟨c, hr, hf⟩
    · subst hr
      rw [ht]
      exact Or.inr ⟨fun c hcon => RunResult.noConfusion hcon, NK_refl env _⟩
  · rename_i tr1 hb
    have hnk1 : NK env tr (tr1 ++ [Ev.chdir (buildDirName v)]) :=
      NK_trans (stageBuildDir_ok_NK hb)
        (NK_snoc_misc tr1 _ (by intro c hcon; cases hcon))
    rcases runAfterBuild_inv env d2 v (tr1 ++ [Ev.chdir (buildDirName v)]) with ⟨c, h1, h2⟩ | ⟨h1, h2⟩
    · exact Or.inl ⟨c, h1, h2⟩
    · exact Or.inr ⟨h1, NK_trans hnk1 h2⟩

theorem runAfterTarball_inv (env : Env) (d2 : Option String) (v : String) (tr : List Ev) :
    (∃ c, (runAfterTarball env d2 v tr).1 = RunResult.cmdFailed c ∧ env.cmdOk c = false) ∨
    ((∀ c, (runAfterTarball env d2 v tr).1 ≠ RunResult.cmdFailed c) ∧
      NK env tr (runAfterTarball env d2 v tr).2) := by
  unfold runAfterTarball
  split
  · rename_i e ht
    obtain ⟨r, t⟩ := e
    dsimp only
    obtain ⟨hc, hr, htr⟩ := runCmd_err ht
    exact Or.inl ⟨_, hr, hc⟩
  · rename_i tr1 ht
    obtain ⟨hok, rfl⟩ := runCmd_ok ht
    rcases runAfterExtract_inv env d2 v (tr ++ [Ev.cmd ("tar xzfv " ++ tarballName v)]) with ⟨c, h1, h2⟩ | ⟨h1, h2⟩
    · exact Or.inl ⟨c, h1, h2⟩
    · exact Or.inr ⟨h1, NK_trans (NK_snoc_cmd tr hok) h2⟩

theorem runAfterChoice_inv (env : Env) (d2 : Option String) (v : String) (tr : List Ev) :
    (∃ c, (runAfterChoice env d2 v tr).1 = RunResult.cmdFailed c ∧ env.cmdOk c = false) ∨
    ((∀ c, (runAfterChoice env d2 v tr).1 ≠ RunResult.cmdFailed c) ∧
      NK env tr (runAfterChoice env d2 v tr).2) := by
  unfold runAfterChoice
  split
  · rename_i e ht
    obtain ⟨r, t⟩ := e
    dsimp only
    rcases stageTarball_err ht with ⟨c, hr, hf⟩ | ⟨hr, htr⟩
    · exact Or.inl ⟨c, hr, hf⟩
    · subst hr
      rw [htr]
      exact Or.inr ⟨fun c hcon => RunResult.noConfusion hcon, NK_refl env _⟩
  · rename_i tr1 ht
    rcases runAfterTarball_inv env d2 v tr1 with ⟨c, h1, h2⟩ | ⟨h1, h2⟩
    · exact Or.inl ⟨c, h1, h2⟩
    · exact Or.inr ⟨h1, NK_trans (stageTarball_ok_NK ht) h2⟩

theorem run_inv (env : Env) :
    (∃ c, (run env).1 = RunResult.cmdFailed c ∧ env.cmdOk c = false) ∨
    ((∀ c, (run env).1 ≠ RunResult.cmdFailed c) ∧
      ∀ c, Ev.cmd c ∈ (run env).2 → env.cmdOk c = true) := by
  unfold run
  dsimp only
  split
  · exact Or.inr ⟨fun c hcon => RunResult.noConfusion hcon, fun c hc => by simp at hc⟩
  · split
    · exact Or.inr ⟨fun c hcon => RunResult.noConfusion hcon,
        fun c hc => by simp [tr0S] at hc⟩
    · split
      · exact Or.inr ⟨fun c hcon => RunResult.noConfusion hcon,
          fun c hc => by simp [tr0S] at hc⟩
      · exact Or.inr ⟨fun c hcon => RunResult.noConfusion hcon,
          fun c hc => by simp [tr0S] at hc⟩
      · rename_i v hch
        rcases runAfterChoice_inv env (detect_os env).2 v (tr0S env) with ⟨c, h1, h2⟩ | ⟨h1, h2⟩
        · exact Or.inl ⟨c, h1, h2⟩
        · refine Or.inr ⟨h1, ?_⟩
          intro c hc
          rcases h2 c hc with hin | hok
          · simp [tr0S] at hin
          · exact hok

theorem detect_os_fst_nt {env : Env} (h : env.osIsNt = true) :
    (detect_os env).1 = "Windows" := by
  simp [detect_os, h]

theorem detect_os_fst_not_windows {env : Env} (h : env.osIsNt = false) :
    (detect_os env).1 ≠ "Windows" := by
  simp only [detect_os, h, Bool.false_eq_true, if_false]
  split <;> decide

theorem run_windows {env : Env} (h : env.osIsNt = true) :
    run env = (RunResult.windowsExit, []) := by
  unfold run
  dsimp only
  rw [if_pos (detect_os_fst_nt h)]

theorem run_noVersions {env : Env} (h : env.osIsNt = false)
    (hv : sortedVersions env.httpText = []) :
    run env = (RunResult.noVersions, tr0S env) := by
  unfold run
  dsimp only
  rw [if_neg (detect_os_fst_not_windows h), if_pos hv]

theorem chooseVersion_nil_ne (ins : List String) (v : String) :
    chooseVersion [] ins ≠ VerChoice.ok v := by
  induction ins with
  | nil => simp [chooseVersion]
  | cons i rest ih =>
    simp only [chooseVersion]
    split
    · split
      · exact fun hcon => VerChoice.noConfusion hcon
      · exact ih
    · exact ih

theorem run_eq_choice {env : Env} {v : String} (hw : env.osIsNt = false)
    (hch : chooseVersion (sortedVersions env.httpText) env.verInputs = VerChoice.ok v) :
    run env = runAfterChoice env (detect_os env).2 v (tr0S env) := by
  have hvs : ¬ (sortedVersions env.httpText = []) := by
    intro h0
    rw [h0] at hch
    exact chooseVersion_nil_ne env.verInputs v hch
  unfold run
  dsimp only
  rw [if_neg (detect_os_fst_not_windows hw), if_neg hvs, hch]

/-- C4. The process exit code is 1 on Windows detection, 1 when no release
version is found, and 1 whenever any executed external subprocess returned a
nonzero status; it is 0 on normal completion and on an explicit user abort at
either of the two three-way prompts, and those are the only status-0 paths. -/
theorem c4_exit_codes (env : Env) :
    (env.osIsNt = true →
      (run env).1 = RunResult.windowsExit ∧ pyExitCode (run env).1 = some 1) ∧
    (env.osIsNt = false → sortedVersions env.httpText = [] →
      (run env).1 = RunResult.noVersions ∧ pyExitCode (run env).1 = some 1) ∧
    ((∃ c, Ev.cmd c ∈ (run env).2 ∧ env.cmdOk c = false) →
      pyExitCode (run env).1 = some 1) ∧
    ((run env).1 = RunResult.completed ∨ (run env).1 = RunResult.abortTarball ∨
        (run env).1 = RunResult.abortBuild →
      pyExitCode (run env).1 = some 0) := by
  refine ⟨?_, ?_, ?_, ?_⟩
  · intro h
    rw [run_windows h]
    exact ⟨rfl, rfl⟩
  · intro h hv
    rw [run_noVersions h hv]
    exact ⟨rfl, rfl⟩
  · intro hbad
    rcases run_inv env with ⟨c, h1, _⟩ | ⟨_, hall⟩
    · rw [h1]
      rfl
    · obtain ⟨c, hc, hfalse⟩ := hbad
      rw [hall c hc] at hfalse
      exact absurd hfalse (by simp)
  · intro h
    rcases h with h | h | h <;> (rw [h]; rfl)

/-- C4 witness: on a Windows environment the run ends in the Windows refusal
with exit status 1. -/
theorem c4_exit_codes_witness :
    (run { baseEnv with osIsNt := true }).1 = RunResult.windowsExit ∧
      pyExitCode (run { baseEnv with osIsNt := true }).1 = some 1 :=
  (c4_exit_codes { baseEnv with osIsNt := true }).1 rfl

/-! Trace extension and command-shape lemmas. -/

theorem runCmd_mTrace (env : Env) (c : String) (tr : List Ev) :
    mTrace (runCmd env c tr) = tr ++ [Ev.cmd c] := by
  unfold runCmd
  split <;> rfl

theorem stageBuildDir_ext (env : Env) (v : String) (tr : List Ev) :
    ∃ d, mTrace (stageBuildDir env v tr) = tr ++ d := by
  unfold stageBuildDir
  split
  · split
    · split
      · split
        · rename_i e heq
          obtain ⟨r, t⟩ := e
          obtain ⟨-, -, ht⟩ := runCmd_err heq
          exact ⟨[Ev.cmd ("rm -rf " ++ buildDirName v)], by simp [mTrace, ht]⟩
        · rename_i tr1 heq
          obtain ⟨-, rfl⟩ := runCmd_ok heq
          exact ⟨[Ev.cmd ("rm -rf " ++ buildDirName v), Ev.mkdir (buildDirName v)],
            by simp [mTrace]⟩
      · split
        · exact ⟨[], by simp [mTrace]⟩
        · exact ⟨[], by simp [mTrace]⟩
    · exact ⟨[], by simp [mTrace]⟩
  · exact ⟨[Ev.mkdir (buildDirName v)], by simp [mTrace]⟩

theorem stagePackages_ext (env : Env) (d2 : Option String) (tr : List Ev) :
    ∃ d, mTrace (stagePackages env d2 tr) = tr ++ d := by
  unfold stagePackages
  split
  · exact ⟨[], by simp [mTrace]⟩
  · split
    · exact ⟨[], by simp [mTrace]⟩
    · rename_i d hd c hc
      exact ⟨[Ev.cmd c], runCmd_mTrace env c tr⟩

theorem stageFinish_ext (env : Env) (v : String) (tr : List Ev) :
    ∃ d, mTrace (stageFinish env v tr) = tr ++ d := by
  unfold stageFinish
  split
  · rename_i e heq
    obtain ⟨r, t⟩ := e
    obtain ⟨-, -, ht⟩ := runCmd_err heq
    exact ⟨[Ev.cmd ("xdg-open " ++ env.tempPath)], by simp [mTrace, ht]⟩
  · rename_i tra h1
    obtain ⟨-, rfl⟩ := runCmd_ok h1
    split
    · rename_i e heq
      obtain ⟨r, t⟩ := e
      obtain ⟨-, -, ht⟩ := runCmd_err heq
      exact ⟨[Ev.cmd ("xdg-open " ++ env.tempPath), Ev.cmd ("ccmake ../" ++ srcDirName v)],
        by simp [mTrace, ht]⟩
    · rename_i trb h2
      obtain ⟨-, rfl⟩ := runCmd_ok h2
      split
      · exact ⟨[Ev.cmd ("xdg-open " ++ env.tempPath), Ev.cmd ("ccmake ../" ++ srcDirName v)],
          by simp [mTrace]⟩
      · rename_i cores h3
        split
        · rename_i e heq
          obtain ⟨r, t⟩ := e
          obtain ⟨-, -, ht⟩ := runCmd_err heq
          exact ⟨[Ev.cmd ("xdg-open " ++ env.tempPath), Ev.cmd ("ccmake ../" ++ srcDirName v),
            Ev.cmd ("make -j" ++ toString cores)], by simp [mTrace, ht]⟩
        · rename_i trc h4
          obtain ⟨-, rfl⟩ := runCmd_ok h4
          split
          · rename_i e heq
            obtain ⟨r, t⟩ := e
            obtain ⟨-, -, ht⟩ := runCmd_err heq
            exact ⟨[Ev.cmd ("xdg-open " ++ env.tempPath), Ev.cmd ("ccmake ../" ++ srcDirName v),
              Ev.cmd ("make -j" ++ toString cores), Ev.cmd "make install"],
              by simp [mTrace, ht]⟩
          · rename_i trd h5
            obtain ⟨-, rfl⟩ := runCmd_ok h5
            split
            · exact ⟨[Ev.cmd ("xdg-open " ++ env.tempPath), Ev.cmd ("ccmake ../" ++ srcDirName v),
                Ev.cmd ("make -j" ++ toString cores), Ev.cmd "make install",
                Ev.bashrcAppend (aliasBlock (installPath env.scriptDir v))],
                by simp [mTrace]⟩
            · exact ⟨[Ev.cmd ("xdg-open " ++ env.tempPath), Ev.cmd ("ccmake ../" ++ srcDirName v),
                Ev.cmd ("make -j" ++ toString cores), Ev.cmd "make install"],
                by simp [mTrace]⟩

theorem runAfterBuild_ext (env : Env) (d2 : Option String) (v : String) (tr : List Ev) :
    ∃ d, (runAfterBuild env d2 v tr).2 = tr ++ d := by
  unfold runAfterBuild
  split
  · rename_i e heq
    obtain ⟨r, t⟩ := e
    obtain ⟨d1, hd1⟩ := stagePackages_ext env d2 tr
    rw [heq] at hd1
    simp only [mTrace] at hd1
    exact ⟨d1, hd1⟩
  · rename_i tr1 heq
    obtain ⟨d1, hd1⟩ := stagePackages_ext env d2 tr
    rw [heq] at hd1
    simp only [mTrace] at hd1
    subst hd1
    split
    · rename_i e hf
      obtain ⟨r, t⟩ := e
      obtain ⟨d2x, hd2⟩ := stageFinish_ext env v (tr ++ d1)
      rw [hf] at hd2
      simp only [mTrace] at hd2
      exact ⟨d1 ++ d2x, by simp [hd2]⟩
    · rename_i tr2 hf
      obtain ⟨d2x, hd2⟩ := stageFinish_ext env v (tr ++ d1)
      rw [hf] at hd2
      simp only [mTrace] at hd2
      exact ⟨d1 ++ d2x, by simp [hd2]⟩

theorem runAfterExtract_ext (env : Env) (d2 : Option String) (v : String) (tr : List Ev) :
    ∃ d, (runAfterExtract env d2 v tr).2 = tr ++ d := by
  unfold runAfterExtract
  split
  · rename_i e heq
    obtain ⟨r, t⟩ := e
    obtain ⟨d1, hd1⟩ := stageBuildDir_ext env v tr
    rw [heq] at hd1
    simp only [mTrace] at hd1
    exact ⟨d1, hd1⟩
  · rename_i tr1 heq
    obtain ⟨d1, hd1⟩ := stageBuildDir_ext env v tr
    rw [heq] at hd1
    simp only [mTrace] at hd1
    subst hd1
    obtain ⟨d2x, hd2⟩ := runAfterBuild_ext env d2 v ((tr ++ d1) ++ [Ev.chdir (buildDirName v)])
    refine ⟨d1 ++ [Ev.chdir (buildDirName v)] ++ d2x, ?_⟩
    simp only [List.append_assoc, List.singleton_append] at hd2 ⊢
    exact hd2

theorem runAfterTarball_ext (env : Env) (d2 : Option String) (v : String) (tr : List Ev) :
    ∃ d, (runAfterTarball env d2 v tr).2 =
      (tr ++ [Ev.cmd ("tar xzfv " ++ tarballName v)]) ++ d := by
  unfold runAfterTarball
  split
  · rename_i e heq
    obtain ⟨r, t⟩ := e
    obtain ⟨-, -, ht⟩ := runCmd_err heq
    exact ⟨[], by simp [ht]⟩
  · rename_i tr1 heq
    obtain ⟨-, rfl⟩ := runCmd_ok heq
    exact runAfterExtract_ext env d2 v _

theorem install_packages_cmd_shape {d k c : String} (h : install_packages_cmd d k = some c) :
    c = pacmanCmd ∨ c = aptCmd ∨ c = zypperCmd ∨ c = dnfRockyCmd ∨
    c = dnf5FedoraCmd ∨ c = dnfFedoraCmd := by
  unfold install_packages_cmd at h
  repeat' split at h
  all_goals (try exact Option.noConfusion h)
  all_goals
    (injection h with h2
     subst h2
     first
       | exact Or.inl rfl
       | exact Or.inr (Or.inl rfl)
       | exact Or.inr (Or.inr (Or.inl rfl))
       | exact Or.inr (Or.inr (Or.inr (Or.inl rfl)))
       | exact Or.inr (Or.inr (Or.inr (Or.inr (Or.inl rfl))))
       | exact Or.inr (Or.inr (Or.inr (Or.inr (Or.inr rfl)))))

theorem postTarballCmd_of_tar {env : Env} {v c : String}
    (h : c = "tar xzfv " ++ tarballName v) : postTarballCmd env v c := by
  unfold postTarballCmd
  exact Or.inl h

theorem postTarballCmd_of_build {env : Env} {v c : String}
    (h : c = "rm -rf " ++ buildDirName v) : postTarballCmd env v c := by
  unfold postTarballCmd
  exact Or.inr (Or.inl h)

theorem postTarballCmd_of_pkg {env : Env} {v c : String}
    (h : c = pacmanCmd ∨ c = aptCmd ∨ c = zypperCmd ∨ c = dnfRockyCmd ∨
      c = dnf5FedoraCmd ∨ c = dnfFedoraCmd) : postTarballCmd env v c := by
  unfold postTarballCmd
  rcases h with h | h | h | h | h | h
  · exact Or.inr (Or.inr (Or.inl h))
  · exact Or.inr (Or.inr (Or.inr (Or.inl h)))
  · exact Or.inr (Or.inr (Or.inr (Or.inr (Or.inl h))))
  · exact Or.inr (Or.inr (Or.inr (Or.inr (Or.inr (Or.inl h)))))
  · exact Or.inr (Or.inr (Or.inr (Or.inr (Or.inr (Or.inr (Or.inl h))))))
  · exact Or.inr (Or.inr (Or.inr (Or.inr (Or.inr (Or.inr (Or.inr (Or.inl h)))))))

theorem postTarballCmd_of_finish {env : Env} {v c : String}
    (h : c = "xdg-open " ++ env.tempPath ∨ c = "ccmake ../" ++ srcDirName v ∨
      (∃ k : Int, c = "make -j" ++ toString k) ∨ c = "make install") :
    postTarballCmd env v c := by
  unfold postTarballCmd
  rcases h with h | h | h | h
  · exact Or.inr (Or.inr (Or.inr (Or.inr (Or.inr (Or.inr (Or.inr (Or.inr (Or.inl h))))))))
  · exact Or.inr (Or.inr (Or.inr (Or.inr (Or.inr (Or.inr (Or.inr (Or.inr (Or.inr (Or.inl h)))))))))
  · exact Or.inr (Or.inr (Or.inr (Or.inr (Or.inr (Or.inr (Or.inr (Or.inr (Or.inr (Or.inr (Or.inl h))))))))))
  · exact Or.inr (Or.inr (Or.inr (Or.inr (Or.inr (Or.inr (Or.inr (Or.inr (Or.inr (Or.inr (Or.inr h))))))))))

theorem stageBuildDir_cmds {env : Env} {v : String} {tr : List Ev} :
    ∀ c, Ev.cmd c ∈ mTrace (stageBuildDir env v tr) →
      Ev.cmd c ∈ tr ∨ c = "rm -rf " ++ buildDirName v := by
  intro c hc
  unfold stageBuildDir at hc
  split at hc
  · split at hc
    · split at hc
      · split at hc
        · rename_i e heq
          obtain ⟨r, t⟩ := e
          obtain ⟨-, -, ht⟩ := runCmd_err heq
          simp only [mTrace] at hc
          rw [ht] at hc
          rcases List.mem_append.mp hc with h1 | h1
          · exact Or.inl h1
          · simp at h1
            exact Or.inr h1
        · rename_i tr1 heq
          obtain ⟨-, rfl⟩ := runCmd_ok heq
          simp only [mTrace] at hc
          rcases List.mem_append.mp hc with h1 | h1
          · rcases List.mem_append.mp h1 with h2 | h2
            · exact Or.inl h2
            · simp at h2
              exact Or.inr h2
          · simp at h1
      · split at hc
        · simp only [mTrace] at hc
          exact Or.inl hc
        · simp only [mTrace] at hc
          exact Or.inl hc
    · simp only [mTrace] at hc
      exact Or.inl hc
  · simp only [mTrace] at hc
    rcases List.mem_append.mp hc with h1 | h1
    · exact Or.inl h1
    · simp at h1

theorem stagePackages_cmds {env : Env} {d2 : Option String} {tr : List Ev} :
    ∀ c, Ev.cmd c ∈ mTrace (stagePackages env d2 tr) →
      Ev.cmd c ∈ tr ∨ c = pacmanCmd ∨ c = aptCmd ∨ c = zypperCmd ∨ c = dnfRockyCmd ∨
        c = dnf5FedoraCmd ∨ c = dnfFedoraCmd := by
  intro c hc
  unfold stagePackages at hc
  split at hc
  · simp only [mTrace] at hc
    exact Or.inl hc
  · split at hc
    · simp only [mTrace] at hc
      exact Or.inl hc
    · rename_i d hd c2 hcmd
      rw [runCmd_mTrace] at hc
      rcases List.mem_append.mp hc with h1 | h1
      · exact Or.inl h1
      · simp at h1
        rw [h1]
        exact Or.inr (install_packages_cmd_shape hcmd)

theorem stageFinish_cmds {env : Env} {v : String} {tr : List Ev} :
    ∀ c, Ev.cmd c ∈ mTrace (stageFinish env v tr) →
      Ev.cmd c ∈ tr ∨ c = "xdg-open " ++ env.tempPath ∨ c = "ccmake ../" ++ srcDirName v ∨
        (∃ k : Int, c = "make -j" ++ toString k) ∨ c = "make install" := by
  intro c hc
  unfold stageFinish at hc
  split at hc
  · rename_i e heq
    obtain ⟨r, t⟩ := e
    obtain ⟨-, -, ht⟩ := runCmd_err heq
    simp only [mTrace] at hc
    rw [ht] at hc
    rcases List.mem_append.mp hc with h1 | h1
    · exact Or.inl h1
    · simp at h1
      exact Or.inr (Or.inl h1)
  · rename_i tra h1
    obtain ⟨-, rfl⟩ := runCmd_ok h1
    split at hc
    · rename_i e heq
      obtain ⟨r, t⟩ := e
      obtain ⟨-, -, ht⟩ := runCmd_err heq
      simp only [mTrace] at hc
      rw [ht] at hc
      simp only [List.append_assoc, List.mem_append] at hc
      rcases hc with h1 | h1 | h1
      · exact Or.inl h1
      · simp at h1
        exact Or.inr (Or.inl h1)
      · simp at h1
        exact Or.inr (Or.inr (Or.inl h1))
    · rename_i trb h2
      obtain ⟨-, rfl⟩ := runCmd_ok h2
      split at hc
      · simp only [mTrace] at hc
        simp only [List.append_assoc, List.mem_append] at hc
        rcases hc with h1 | h1 | h1
        · exact Or.inl h1
        · simp at h1
          exact Or.inr (Or.inl h1)
        · simp at h1
          exact Or.inr (Or.inr (Or.inl h1))
      · rename_i cores h3
        split at hc
        · rename_i e heq
          obtain ⟨r, t⟩ := e
          obtain ⟨-, -, ht⟩ := runCmd_err heq
          simp only [mTrace] at hc
          rw [ht] at hc
          simp only [List.append_assoc, List.mem_append] at hc
          rcases hc with h1 | h1 | h1 | h1
          · exact Or.inl h1
          · simp at h1
            exact Or.inr (Or.inl h1)
          · simp at h1
            exact Or.inr (Or.inr (Or.inl h1))
          · simp at h1
            exact Or.inr (Or.inr (Or.inr (Or.inl ⟨cores, h1⟩)))
        · rename_i trc h4
          obtain ⟨-, rfl⟩ := runCmd_ok h4
          split at hc
          · rename_i e heq
            obtain ⟨r, t⟩ := e
            obtain ⟨-, -, ht⟩ := runCmd_err heq
            simp only [mTrace] at hc
            rw [ht] at hc
            simp only [List.append_assoc, List.mem_append] at hc
            rcases hc with h1 | h1 | h1 | h1 | h1
            · exact Or.inl h1
            · simp at h1
              exact Or.inr (Or.inl h1)
            · simp at h1
              exact Or.inr (Or.inr (Or.inl h1))
            · simp at h1
              exact Or.inr (Or.inr (Or.inr (Or.inl ⟨cores, h1⟩)))
            · simp at h1
              exact Or.inr (Or.inr (Or.inr (Or.inr h1)))
          · rename_i trd h5
            obtain ⟨-, rfl⟩ := runCmd_ok h5
            split at hc
            · simp only [mTrace] at hc
              simp only [List.append_assoc, List.mem_append] at hc
              rcases hc with h1 | h1 | h1 | h1 | h1 | h1
              · exact Or.inl h1
              · simp at h1
                exact Or.inr (Or.inl h1)
              · simp at h1
                exact Or.inr (Or.inr (Or.inl h1))
              · simp at h1
                exact Or.inr (Or.inr (Or.inr (Or.inl ⟨cores, h1⟩)))
              · simp at h1
                exact Or.inr (Or.inr (Or.inr (Or.inr h1)))
              · simp at h1
            · simp only [mTrace] at hc
              simp only [List.append_assoc, List.mem_append] at hc
              rcases hc with h1 | h1 | h1 | h1 | h1
              · exact Or.inl h1
              · simp at h1
                exact Or.inr (Or.inl h1)
              · simp at h1
                exact Or.inr (Or.inr (Or.inl h1))
              · simp at h1
                exact Or.inr (Or.inr (Or.inr (Or.inl ⟨cores, h1⟩)))
              · simp at h1
                exact Or.inr (Or.inr (Or.inr (Or.inr h1)))

theorem runAfterBuild_cmds {env : Env} {d2 : Option String} {v : String} {tr : List Ev} :
    ∀ c, Ev.cmd c ∈ (runAfterBuild env d2 v tr).2 →
      Ev.cmd c ∈ tr ∨ postTarballCmd env v c := by
  intro c hc
  unfold runAfterBuild at hc
  split at hc
  · rename_i e heq
    obtain ⟨r, t⟩ := e
    have := @stagePackages_cmds env d2 tr c
    rw [heq] at this
    rcases this hc with h1 | h1
    · exact Or.inl h1
    · exact Or.inr (postTarballCmd_of_pkg h1)
  · rename_i tr1 heq
    have hstep := @stagePackages_cmds env d2 tr c
    rw [heq] at hstep
    split at hc
    · rename_i e hf
      obtain ⟨r, t⟩ := e
      have hfin := @stageFinish_cmds env v tr1 c
      rw [hf] at hfin
      rcases hfin hc with h1 | h1
      · rcases hstep h1 with h2 | h2
        · exact Or.inl h2
        · exact Or.inr (postTarballCmd_of_pkg h2)
      · exact Or.inr (postTarballCmd_of_finish h1)
    · rename_i tr2 hf
      have hfin := @stageFinish_cmds env v tr1 c
      rw [hf] at hfin
      rcases hfin hc with h1 | h1
      · rcases hstep h1 with h2 | h2
        · exact Or.inl h2
        · exact Or.inr (postTarballCmd_of_pkg h2)
      · exact Or.inr (postTarballCmd_of_finish h1)

theorem runAfterExtract_cmds {env : Env} {d2 : Option String} {v : String} {tr : List Ev} :
    ∀ c, Ev.cmd c ∈ (runAfterExtract env d2 v tr).2 →
      Ev.cmd c ∈ tr ∨ postTarballCmd env v c := by
  intro c hc
  unfold runAfterExtract at hc
  split at hc
  · rename_i e heq
    obtain ⟨r, t⟩ := e
    have := @stageBuildDir_cmds env v tr c
    rw [heq] at this
    rcases this hc with h1 | h1
    · exact Or.inl h1
    · exact Or.inr (postTarballCmd_of_build h1)
  · rename_i tr1 heq
    have hstep := @stageBuildDir_cmds env v tr c
    rw [heq] at hstep
    rcases runAfterBuild_cmds c hc with h1 | h1
    · rcases List.mem_append.mp h1 with h2 | h2
      · rcases hstep h2 with h3 | h3
        · exact Or.inl h3
        · exact Or.inr (postTarballCmd_of_build h3)
      · simp at h2
    · exact Or.inr h1

theorem runAfterTarball_cmds {env : Env} {d2 : Option String} {v : String} {tr : List Ev} :
    ∀ c, Ev.cmd c ∈ (runAfterTarball env d2 v tr).2 →
      Ev.cmd c ∈ tr ∨ postTarballCmd env v c := by
  intro c hc
  unfold runAfterTarball at hc
  split at hc
  · rename_i e heq
    obtain ⟨r, t⟩ := e
    obtain ⟨-, -, ht⟩ := runCmd_err heq
    simp only at hc
    rw [ht] at hc
    rcases List.mem_append.mp hc with h1 | h1
    · exact Or.inl h1
    · simp at h1
      exact Or.inr (postTarballCmd_of_tar h1)
  · rename_i tr1 heq
    obtain ⟨-, rfl⟩ := runCmd_ok heq
    rcases runAfterExtract_cmds c hc with h1 | h1
    · rcases List.mem_append.mp h1 with h2 | h2
      · exact Or.inl h2
      · simp at h2
        exact Or.inr (postTarballCmd_of_tar h2)
    · exact Or.inr h1

theorem postTarballCmd_not_wget {env : Env} {v c : String} (h : postTarballCmd env v c) :
    strStarts "wget" c = false := by
  unfold postTarballCmd at h
  rcases h with rfl | rfl | rfl | rfl | rfl | rfl | rfl | rfl | rfl | rfl | ⟨k, rfl⟩ | rfl <;> rfl

/-- C5. Whenever the tarball already exists and the run reaches that prompt:
answering s downloads nothing (no executed command is a wget invocation) and
the extraction command runs on the existing file; answering anything other
than r or s terminates the process with exit status 0 before any further
external command, in particular before any extraction. -/
theorem c5_tarball_prompt (env : Env) (v : String)
    (hnt : env.osIsNt = false)
    (hch : chooseVersion (sortedVersions env.httpText) env.verInputs = VerChoice.ok v)
    (hex : env.tarballExists = true) :
    (pyStripLower env.tarChoice = "s" →
      (∀ c, Ev.cmd c ∈ (run env).2 → strStarts "wget" c = false) ∧
      Ev.cmd ("tar xzfv " ++ tarballName v) ∈ (run env).2) ∧
    (pyStripLower env.tarChoice ≠ "r" → pyStripLower env.tarChoice ≠ "s" →
      (run env).1 = RunResult.abortTarball ∧ pyExitCode (run env).1 = some 0 ∧
      ∀ c, Ev.cmd c ∉ (run env).2) := by
  rw [run_eq_choice hnt hch]
  constructor
  · intro hsk
    have hst : stageTarball env v (tr0S env) = Except.ok (tr0S env) := by
      simp [stageTarball, hex, hsk]
    have hrac : runAfterChoice env (detect_os env).2 v (tr0S env) =
        runAfterTarball env (detect_os env).2 v (tr0S env) := by
      unfold runAfterChoice
      rw [hst]
    rw [hrac]
    constructor
    · intro c hc
      rcases runAfterTarball_cmds c hc with h1 | h1
      · simp [tr0S] at h1
      · exact postTarballCmd_not_wget h1
    · obtain ⟨d, hd⟩ := runAfterTarball_ext env (detect_os env).2 v (tr0S env)
      rw [hd]
      simp
  · intro hnr hns
    have hst : stageTarball env v (tr0S env) =
        Except.error (RunResult.abortTarball, tr0S env) := by
      simp [stageTarball, hex, hnr, hns]
    have hrac : runAfterChoice env (detect_os env).2 v (tr0S env) =
        (RunResult.abortTarball, tr0S env) := by
      unfold runAfterChoice
      rw [hst]
    rw [hrac]
    refine ⟨rfl, rfl, ?_⟩
    intro c hc
    simp [tr0S] at hc

/-- C5 witness: with an existing tarball and the answer S, no wget command is
executed and the extraction command on the existing tarball is; all at a
concrete environment. -/
theorem c5_tarball_prompt_witness :
    Ev.cmd ("tar xzfv " ++ tarballName "1.2") ∈ (run c5env).2 :=
  ((c5_tarball_prompt c5env "1.2" rfl (by decide) rfl).1 (by decide)).2

/-- C6. Whenever the run reaches the build-directory prompt with an existing
non-empty build directory and the user answers C, the effect sequence is
exactly: the directory is removed, recreated empty, and only then entered,
before any further step of the program. -/
theorem c6_build_clear (env : Env) (v : String)
    (hnt : env.osIsNt = false)
    (hch : chooseVersion (sortedVersions env.httpText) env.verInputs = VerChoice.ok v)
    (hex : env.tarballExists = true)
    (hsk : pyStripLower env.tarChoice = "s")
    (htar : env.cmdOk ("tar xzfv " ++ tarballName v) = true)
    (hbe : env.buildExists = true)
    (hbne : env.buildNonEmpty = true)
    (hbc : pyStripLower env.buildChoice = "c")
    (hrm : env.cmdOk ("rm -rf " ++ buildDirName v) = true) :
    ∃ rest, (run env).2 = tr0S env ++
      Ev.cmd ("tar xzfv " ++ tarballName v) ::
      Ev.cmd ("rm -rf " ++ buildDirName v) ::
      Ev.mkdir (buildDirName v) ::
      Ev.chdir (buildDirName v) :: rest := by
  rw [run_eq_choice hnt hch]
  have hst : stageTarball env v (tr0S env) = Except.ok (tr0S env) := by
    simp [stageTarball, hex, hsk]
  have e1 : runAfterChoice env (detect_os env).2 v (tr0S env) =
      runAfterTarball env (detect_os env).2 v (tr0S env) := by
    unfold runAfterChoice
    rw [hst]
  have hrc : runCmd env ("tar xzfv " ++ tarballName v) (tr0S env) =
      Except.ok (tr0S env ++ [Ev.cmd ("tar xzfv " ++ tarballName v)]) := by
    simp [runCmd, htar]
  have e2 : runAfterTarball env (detect_os env).2 v (tr0S env) =
      runAfterExtract env (detect_os env).2 v
        (tr0S env ++ [Ev.cmd ("tar xzfv " ++ tarballName v)]) := by
    unfold runAfterTarball
    rw [hrc]
  have hrm2 : runCmd env ("rm -rf " ++ buildDirName v)
      (tr0S env ++ [Ev.cmd ("tar xzfv " ++ tarballName v)]) =
      Except.ok ((tr0S env ++ [Ev.cmd ("tar xzfv " ++ tarballName v)])
        ++ [Ev.cmd ("rm -rf " ++ buildDirName v)]) := by
    simp [runCmd, hrm]
  have hbd : stageBuildDir env v (tr0S env ++ [Ev.cmd ("tar xzfv " ++ tarballName v)]) =
      Except.ok (((tr0S env ++ [Ev.cmd ("tar xzfv " ++ tarballName v)])
        ++ [Ev.cmd ("rm -rf " ++ buildDirName v)]) ++ [Ev.mkdir (buildDirName v)]) := by
    unfold stageBuildDir
    rw [hbe, hbne, hrm2]
    simp [hbc]
  have e3 : runAfterExtract env (detect_os env).2 v
      (tr0S env ++ [Ev.cmd ("tar xzfv " ++ tarballName v)]) =
      runAfterBuild env (detect_os env).2 v
        ((((tr0S env ++ [Ev.cmd ("tar xzfv " ++ tarballName v)])
          ++ [Ev.cmd ("rm -rf " ++ buildDirName v)]) ++ [Ev.mkdir (buildDirName v)])
          ++ [Ev.chdir (buildDirName v)]) := by
    unfold runAfterExtract
    rw [hbd]
  rw [e1, e2, e3]
  obtain ⟨d, hd⟩ := runAfterBuild_ext env (detect_os env).2 v
    ((((tr0S env ++ [Ev.cmd ("tar xzfv " ++ tarballName v)])
      ++ [Ev.cmd ("rm -rf " ++ buildDirName v)]) ++ [Ev.mkdir (buildDirName v)])
      ++ [Ev.chdir (buildDirName v)])
  refine ⟨d, ?_⟩
  rw [hd]
  simp [List.append_assoc]

/-- C6 witness: at a concrete environment with a non-empty existing build
directory and answer C, the remove, recreate and enter effects appear in
order right after extraction. -/
theorem c6_build_clear_witness :
    ∃ rest, (run c6env).2 = tr0S c6env ++
      Ev.cmd ("tar xzfv " ++ tarballName "1.2") ::
      Ev.cmd ("rm -rf " ++ buildDirName "1.2") ::
      Ev.mkdir (buildDirName "1.2") ::
      Ev.chdir (buildDirName "1.2") :: rest :=
  c6_build_clear c6env "1.2" rfl (by decide) rfl (by decide) rfl rfl rfl (by decide) rfl

/-! String facts for the derived names and paths, claim C8. -/

theorem str_ext {a b : String} (h : a.data = b.data) : a = b := by
  cases a
  cases b
  subst h
  rfl

theorem data_append_eq (a b : String) : (a ++ b).data = a.data ++ b.data := rfl

theorem tarUrl_eq (v : String) :
    tarUrl v =
      "https://gitlab.cern.ch/geant4/geant4/-/archive/v" ++ v ++ "/geant4-v" ++ v ++ ".tar.gz" := by
  apply str_ext
  simp only [tarUrl, tarballName, data_append_eq, List.append_assoc]
  rfl

theorem installPath_eq {sd : String} (v : String)
    (h1 : strEnds "/" sd = false) (h2 : sd ≠ "") :
    installPath sd v = sd ++ "/Geant4/geant4-v" ++ v ++ "-install" := by
  have hj1 : pyJoin sd "Geant4" = sd ++ "/" ++ "Geant4" := by
    unfold pyJoin
    rw [if_neg (by decide), if_neg h2, if_neg (by simp [h1])]
  have hne : sd ++ "/" ++ "Geant4" ≠ "" := by
    intro h0
    have h0d : ((sd ++ "/" ++ "Geant4")).data = ("" : String).data := congrArg String.data h0
    rw [data_append_eq, data_append_eq] at h0d
    rcases List.append_eq_nil.mp h0d with ⟨-, hG⟩
    exact absurd hG (by decide)
  have hend : strEnds "/" (sd ++ "/" ++ "Geant4") = false := by
    unfold strEnds
    rw [data_append_eq, data_append_eq, List.reverse_append, List.reverse_append]
    rfl
  have hj2 : pyJoin (sd ++ "/" ++ "Geant4") ("geant4-v" ++ v ++ "-install") =
      (sd ++ "/" ++ "Geant4") ++ "/" ++ ("geant4-v" ++ v ++ "-install") := by
    unfold pyJoin
    rw [if_neg (by rw [show strStarts "/" ("geant4-v" ++ v ++ "-install") = false from rfl]; simp),
      if_neg hne, if_neg (by simp [hend])]
  unfold installPath
  rw [hj1, hj2]
  apply str_ext
  simp only [data_append_eq, List.append_assoc]
  rfl

/-- C8. For every chosen version v the derived tarball name is
geant4-v(v).tar.gz, the download URL is the archive base followed by v(v)
and that tarball name, and the install path joins the script directory,
Geant4, and geant4-v(v)-install; the wget invocation the run would execute
uses exactly that URL, and the concrete instances at version 11.2.2 come out
as the spec states. -/
theorem c8_derived_names (env : Env) (v : String)
    (hnt : env.osIsNt = false)
    (hch : chooseVersion (sortedVersions env.httpText) env.verInputs = VerChoice.ok v)
    (hnx : env.tarballExists = false)
    (hs1 : strEnds "/" env.scriptDir = false)
    (hs2 : env.scriptDir ≠ "") :
    tarballName v = "geant4-v" ++ v ++ ".tar.gz" ∧
    tarUrl v = "https://gitlab.cern.ch/geant4/geant4/-/archive/v" ++ v ++ "/geant4-v" ++ v ++ ".tar.gz" ∧
    Ev.cmd ("wget " ++ tarUrl v) ∈ (run env).2 ∧
    installPath env.scriptDir v = env.scriptDir ++ "/Geant4/geant4-v" ++ v ++ "-install" ∧
    tarballName "11.2.2" = "geant4-v11.2.2.tar.gz" ∧
    installPath "/opt/scripts" "11.2.2" = "/opt/scripts/Geant4/geant4-v11.2.2-install" := by
  refine ⟨rfl, tarUrl_eq v, ?_, installPath_eq v hs1 hs2, rfl, rfl⟩
  rw [run_eq_choice hnt hch]
  have hst : stageTarball env v (tr0S env) =
      runCmd env ("wget " ++ tarUrl v) (tr0S env) := by
    simp [stageTarball, hnx]
  cases hw : runCmd env ("wget " ++ tarUrl v) (tr0S env) with
  | error e =>
    obtain ⟨r, t⟩ := e
    have hq : runAfterChoice env (detect_os env).2 v (tr0S env) = (r, t) := by
      unfold runAfterChoice
      rw [hst, hw]
    rw [hq]
    obtain ⟨-, -, ht⟩ := runCmd_err hw
    rw [ht]
    simp
  | ok tr1 =>
    have hq : runAfterChoice env (detect_os env).2 v (tr0S env) =
        runAfterTarball env (detect_os env).2 v tr1 := by
      unfold runAfterChoice
      rw [hst, hw]
    rw [hq]
    obtain ⟨-, rfl⟩ := runCmd_ok hw
    obtain ⟨d, hd⟩ := runAfterTarball_ext env (detect_os env).2 v
      (tr0S env ++ [Ev.cmd ("wget " ++ tarUrl v)])
    rw [hd]
    simp

/-- C8 witness: at a concrete environment the wget command on the templated
URL for the chosen version 1.2 is executed. -/
theorem c8_derived_names_witness :
    Ev.cmd ("wget " ++ tarUrl "1.2") ∈ (run baseEnv).2 ∧
      installPath "/opt/scripts" "11.2.2" = "/opt/scripts/Geant4/geant4-v11.2.2-install" :=
  ⟨(c8_derived_names baseEnv "1.2" rfl (by decide) rfl (by decide) (by decide)).2.2.1,
   (c8_derived_names baseEnv "1.2" rfl (by decide) rfl (by decide) (by decide)).2.2.2.2.2⟩

/-! Shell Integration, claim C9. -/

theorem str_append_assoc (a b c : String) : (a ++ b) ++ c = a ++ (b ++ c) :=
  str_ext (List.append_assoc a.data b.data c.data)

theorem runCmd_all_ok {env : Env} (hall : ∀ c, env.cmdOk c = true) (c : String) (t : List Ev) :
    runCmd env c t = Except.ok (t ++ [Ev.cmd c]) := by
  simp [runCmd, hall]

theorem stagePackages_run {env : Env} {dstr : String} (hall : ∀ c, env.cmdOk c = true)
    (tr : List Ev) : ∃ tr2, stagePackages env (some dstr) tr = Except.ok tr2 := by
  unfold stagePackages
  cases hcmd : install_packages_cmd dstr env.kernel with
  | none => exact ⟨tr, by simp [hcmd]⟩
  | some c => exact ⟨tr ++ [Ev.cmd c], by simp [hcmd, runCmd_all_ok hall]⟩

theorem stageFinish_run {env : Env} {v : String} (hall : ∀ c, env.cmdOk c = true)
    {k : Int} (hk : get_cpu_cores env.coreInputs = some k) (tr : List Ev) :
    (env.bashrcOk = true → ∃ tr2, stageFinish env v tr = Except.ok tr2 ∧
      Ev.bashrcAppend (aliasBlock (installPath env.scriptDir v)) ∈ tr2) ∧
    (env.bashrcOk = false →
      ∃ tr2, stageFinish env v tr = Except.error (RunResult.crashedWrite, tr2)) := by
  constructor
  · intro hb
    unfold stageFinish
    simp only [runCmd_all_ok hall, hk, hb, if_true]
    refine ⟨_, rfl, ?_⟩
    simp
  · intro hb
    unfold stageFinish
    simp only [runCmd_all_ok hall, hk, hb, Bool.false_eq_true, if_false]
    exact ⟨_, rfl⟩

/-- C9. The Shell Integration step appends the fixed alias block to the
profile unconditionally and with no duplicate detection: n successful runs
append n identical copies of the newline-alias-newline block; in the run
model, every completed run records exactly this append, and when the final
profile write raises, the exception is uncaught (no controlled exit status),
rather than a controlled failure. -/
theorem c9_profile_append (ip : String) :
    (∀ (n : Nat) (p : String), (appendProfile ip)^[n] p = p ++ repeatBlock ip n) ∧
    (∀ n : Nat, (repeatBlock ip n).data = List.flatten (List.replicate n (aliasBlock ip).data)) ∧
    (∀ (env : Env) (v : String),
      env.osIsNt = false →
      chooseVersion (sortedVersions env.httpText) env.verInputs = VerChoice.ok v →
      env.tarballExists = false →
      env.buildExists = false →
      (∀ c, env.cmdOk c = true) →
      (∃ dstr, (detect_os env).2 = some dstr) →
      (∃ k, get_cpu_cores env.coreInputs = some k) →
      (env.bashrcOk = true →
        (run env).1 = RunResult.completed ∧
        Ev.bashrcAppend (aliasBlock (installPath env.scriptDir v)) ∈ (run env).2) ∧
      (env.bashrcOk = false →
        (run env).1 = RunResult.crashedWrite ∧ pyExitCode (run env).1 = none)) := by
  refine ⟨?_, ?_, ?_⟩
  · intro n
    induction n with
    | zero =>
      intro p
      apply str_ext
      simp [repeatBlock, data_append_eq]
    | succ n ih =>
      intro p
      rw [Function.iterate_succ_apply, ih]
      show (p ++ aliasBlock ip) ++ repeatBlock ip n = p ++ repeatBlock ip (n + 1)
      rw [show repeatBlock ip (n + 1) = aliasBlock ip ++ repeatBlock ip n from rfl]
      exact str_append_assoc p (aliasBlock ip) (repeatBlock ip n)
  · intro n
    induction n with
    | zero => rfl
    | succ n ih =>
      unfold repeatBlock
      rw [data_append_eq, ih]
      simp [List.replicate_succ]
  · intro env v hnt hch hnx hbe0 hall hd hcore
    obtain ⟨dstr, hdstr⟩ := hd
    obtain ⟨k, hk⟩ := hcore
    rw [run_eq_choice hnt hch]
    have hst : stageTarball env v (tr0S env) =
        Except.ok (tr0S env ++ [Ev.cmd ("wget " ++ tarUrl v)]) := by
      unfold stageTarball
      rw [hnx]
      simp [runCmd_all_ok hall]
    have e1 : runAfterChoice env (detect_os env).2 v (tr0S env) =
        runAfterTarball env (detect_os env).2 v
          (tr0S env ++ [Ev.cmd ("wget " ++ tarUrl v)]) := by
      unfold runAfterChoice
      rw [hst]
    have e2 : runAfterTarball env (detect_os env).2 v
        (tr0S env ++ [Ev.cmd ("wget " ++ tarUrl v)]) =
        runAfterExtract env (detect_os env).2 v
          ((tr0S env ++ [Ev.cmd ("wget " ++ tarUrl v)])
            ++ [Ev.cmd ("tar xzfv " ++ tarballName v)]) := by
      unfold runAfterTarball
      rw [runCmd_all_ok hall]
    have hbd : stageBuildDir env v
        ((tr0S env ++ [Ev.cmd ("wget " ++ tarUrl v)])
          ++ [Ev.cmd ("tar xzfv " ++ tarballName v)]) =
        Except.ok (((tr0S env ++ [Ev.cmd ("wget " ++ tarUrl v)])
          ++ [Ev.cmd ("tar xzfv " ++ tarballName v)]) ++ [Ev.mkdir (buildDirName v)]) := by
      unfold stageBuildDir
      rw [hbe0]
      simp
    have e3 : runAfterExtract env (detect_os env).2 v
        ((tr0S env ++ [Ev.cmd ("wget " ++ tarUrl v)])
          ++ [Ev.cmd ("tar xzfv " ++ tarballName v)]) =
        runAfterBuild env (detect_os env).2 v
          ((((tr0S env ++ [Ev.cmd ("wget " ++ tarUrl v)])
            ++ [Ev.cmd ("tar xzfv " ++ tarballName v)]) ++ [Ev.mkdir (buildDirName v)])
            ++ [Ev.chdir (buildDirName v)]) := by
      unfold runAfterExtract
      rw [hbd]
    obtain ⟨trP, hP⟩ := @stagePackages_run env dstr hall
      ((((tr0S env ++ [Ev.cmd ("wget " ++ tarUrl v)])
        ++ [Ev.cmd ("tar xzfv " ++ tarballName v)]) ++ [Ev.mkdir (buildDirName v)])
        ++ [Ev.chdir (buildDirName v)])
    have e4 : runAfterBuild env (detect_os env).2 v
        ((((tr0S env ++ [Ev.cmd ("wget " ++ tarUrl v)])
          ++ [Ev.cmd ("tar xzfv " ++ tarballName v)]) ++ [Ev.mkdir (buildDirName v)])
          ++ [Ev.chdir (buildDirName v)]) =
        (match stageFinish env v trP with
          | .error e => e
          | .ok tr2 => (RunResult.completed, tr2)) := by
      unfold runAfterBuild
      rw [hdstr, hP]
    constructor
    · intro hb
      obtain ⟨tr2, hf, hmem⟩ := (stageFinish_run hall hk trP).1 hb
      rw [e1, e2, e3, e4, hf]
      exact ⟨rfl, hmem⟩
    · intro hb
      obtain ⟨tr2, hf⟩ := (stageFinish_run hall hk trP).2 hb
      rw [e1, e2, e3, e4, hf]
      exact ⟨rfl, rfl⟩

/-- C9 witness: two iterated appends produce two identical blocks, and at a
concrete environment whose profile write fails the run ends in an uncaught
error with no controlled exit status. -/
theorem c9_profile_append_witness :
    (appendProfile "IP")^[2] "" = "" ++ repeatBlock "IP" 2 ∧
    (run { baseEnv with bashrcOk := false }).1 = RunResult.crashedWrite ∧
    pyExitCode (run { baseEnv with bashrcOk := false }).1 = none :=
  ⟨(c9_profile_append "IP").1 2 "",
   ((c9_profile_append "IP").2.2 { baseEnv with bashrcOk := false } "1.2"
      rfl (by decide) rfl rfl (fun _ => rfl) ⟨"Arch Linux", by decide⟩ ⟨2, by decide⟩).2 rfl⟩

/-! Version-selection indexing flaw, claim C10. -/

/-- C10. When the tags page yields at least one and fewer than five distinct
versions, the selection prompt still accepts the answer 5, and indexing the
version list then raises an uncaught IndexError instead of re-prompting or
returning a version; the whole run ends in that crash with no controlled
exit status. -/
theorem c10_index_crash (text : String)
    (h1 : 1 ≤ (sortedVersions text).length)
    (h2 : (sortedVersions text).length ≤ 4) :
    chooseVersion (sortedVersions text) ["5"] = VerChoice.idxErr ∧
    ∀ env : Env, env.osIsNt = false → env.httpText = text → env.verInputs = ["5"] →
      (run env).1 = RunResult.crashedIndex ∧ pyExitCode (run env).1 = none := by
  have hget : (sortedVersions text).get? (((5 : Int) - 1).toNat) = none := by
    apply List.get?_eq_none.mpr
    show (sortedVersions text).length ≤ 4
    exact h2
  have hcv : chooseVersion (sortedVersions text) ["5"] = VerChoice.idxErr := by
    unfold chooseVersion
    simp only [show pyToInt? "5" = some 5 from rfl]
    rw [if_pos (by decide)]
    rw [hget]
  refine ⟨hcv, ?_⟩
  intro env hnt hht hvi
  have hne : ¬ (sortedVersions text = []) := by
    intro h0
    rw [h0] at h1
    simp at h1
  have hrun : run env = (RunResult.crashedIndex, tr0S env) := by
    unfold run
    dsimp only
    rw [if_neg (detect_os_fst_not_windows hnt), hht, if_neg hne, hvi, hcv]
  rw [hrun]
  exact ⟨rfl, rfl⟩

/-- C10 witness: a page with exactly two distinct versions and the answer 5
crashes the selection with an IndexError at a concrete environment. -/
theorem c10_index_crash_witness :
    chooseVersion (sortedVersions "v3.4 v1.2") ["5"] = VerChoice.idxErr ∧
    (run { baseEnv with httpText := "v3.4 v1.2", verInputs := ["5"] }).1 =
      RunResult.crashedIndex :=
  ⟨(c10_index_crash "v3.4 v1.2" (by decide) (by decide)).1,
   ((c10_index_crash "v3.4 v1.2" (by decide) (by decide)).2
      { baseEnv with httpText := "v3.4 v1.2", verInputs := ["5"] } rfl rfl rfl).1⟩

end Gent
